import Mathlib

/-!
# `common/email.go`: `generateMessageID` and `SendEmail`

A shallow embedding of the mailer.  Go strings are modelled as lists of Unicode
code points (`Str`); the process-wide configuration variables become a record
that `SendEmail` receives and returns; every call that `SendEmail` makes into
`crypto/tls`, `net` and `net/smtp` is answered by an environment `Env` and
recorded, with its answer, in a trace of events.  A run-time panic is an
outcome of its own.
-/

namespace Email

/-- A Go string, as the sequence of its code points. -/
abbrev Str := List Char

/-! ## Standard-library functions used by the source -/

/-- Model of `strings.Split(s, sep)` for a separator `sep` of one character, which is
how the source calls it (`";"` and `"@"`): the pieces of `s` between the occurrences
of `sep`, in order; a string without `sep` gives the one-element slice `[s]`. -/
def Split : Str → Char → List Str
  | [], _ => [[]]
  | c :: cs, sep =>
    if c = sep then [] :: Split cs sep
    else
      match Split cs sep with
      | [] => [[c]]
      | p :: ps => (c :: p) :: ps

/-- Model of `unicode.IsSpace`: the code points with the Unicode White_Space property. -/
def isSpace (c : Char) : Bool :=
  let n := c.toNat
  (0x09 ≤ n && n ≤ 0x0D) || n == 0x20 || n == 0x85 || n == 0xA0 || n == 0x1680 ||
  (0x2000 ≤ n && n ≤ 0x200A) || n == 0x2028 || n == 0x2029 || n == 0x202F ||
  n == 0x205F || n == 0x3000

/-- Model of `strings.TrimSpace`: all leading and trailing white space removed. -/
def TrimSpace (s : Str) : Str :=
  ((s.dropWhile isSpace).reverse.dropWhile isSpace).reverse

/-- The bytes of the UTF-8 encoding of one code point. -/
def utf8EncodeChar (c : Char) : List Nat :=
  let v := c.toNat
  if v < 0x80 then [v]
  else if v < 0x800 then [0xC0 + v / 64, 0x80 + v % 64]
  else if v < 0x10000 then [0xE0 + v / 4096, 0x80 + v / 64 % 64, 0x80 + v % 64]
  else [0xF0 + v / 262144, 0x80 + v / 4096 % 64, 0x80 + v / 64 % 64, 0x80 + v % 64]

/-- Model of the conversion `[]byte(s)`: the UTF-8 bytes of the string. -/
def toBytes (s : Str) : List Nat :=
  s.flatMap utf8EncodeChar

/-- The alphabet of `base64.StdEncoding`. -/
def encodeStd : Str :=
  "ABCDEFGHIJKLMNOPQRSTUVWXYZabcdefghijklmnopqrstuvwxyz0123456789+/".toList

/-- The character that stands for the six-bit value `n`. -/
def b64Char (n : Nat) : Char :=
  encodeStd.getD n 'A'

/-- Model of `base64.StdEncoding.EncodeToString`: three bytes become four characters,
a final group of one or two bytes is padded with `=`. -/
def EncodeToString : List Nat → Str
  | [] => []
  | [a] => [b64Char (a / 4), b64Char (a % 4 * 16), '=', '=']
  | [a, b] => [b64Char (a / 4), b64Char (a % 4 * 16 + b / 16), b64Char (b % 16 * 4), '=']
  | a :: b :: c :: rest =>
    b64Char (a / 4) :: b64Char (a % 4 * 16 + b / 16) :: b64Char (b % 16 * 4 + c / 64) ::
      b64Char (c % 64) :: EncodeToString rest

/-- The six-bit value of a character of the alphabet. -/
def b64Val (c : Char) : Option Nat :=
  if c ∈ encodeStd then some (encodeStd.indexOf c) else none

/-- Standard Base64 decoding (RFC 4648, with padding): four characters become three
bytes, and a last group ending in `=` or `==` gives two bytes or one. -/
def DecodeString : Str → Option (List Nat)
  | [] => some []
  | c0 :: c1 :: c2 :: c3 :: rest =>
    match b64Val c0, b64Val c1 with
    | some v0, some v1 =>
      if c2 = '=' then
        if c3 = '=' ∧ rest = [] then some [v0 * 4 + v1 / 16] else none
      else
        match b64Val c2 with
        | none => none
        | some v2 =>
          if c3 = '=' then
            if rest = [] then some [v0 * 4 + v1 / 16, v1 % 16 * 16 + v2 / 4] else none
          else
            match b64Val c3, DecodeString rest with
            | some v3, some bs =>
              some ((v0 * 4 + v1 / 16) :: (v1 % 16 * 16 + v2 / 4) :: (v2 % 4 * 64 + v3) :: bs)
            | _, _ => none
    | _, _ => none
  | _ => none

/-! ## Base 64 after RFC 4648 -/

/-- The eight bits of a byte, the most significant first. -/
def byteBits (b : Nat) : List Nat :=
  [b / 128 % 2, b / 64 % 2, b / 32 % 2, b / 16 % 2, b / 8 % 2, b / 4 % 2, b / 2 % 2, b % 2]

/-- The number written by a list of bits, the most significant first. -/
def bitsValue (bits : List Nat) : Nat :=
  bits.foldl (fun n b => 2 * n + b) 0

/-- A bit stream cut into groups of six bits, read as numbers; a last group of fewer
than six bits is completed with zero bits on the right. -/
def sextets : List Nat → List Nat
  | b0 :: b1 :: b2 :: b3 :: b4 :: b5 :: rest =>
    bitsValue [b0, b1, b2, b3, b4, b5] :: sextets rest
  | [] => []
  | bits => [bitsValue (bits ++ List.replicate (6 - bits.length) 0)]

/-- Table 1 of RFC 4648: 0-25 are `A`-`Z`, 26-51 are `a`-`z`, 52-61 are `0`-`9`, 62 is
`+` and 63 is `/`. -/
def sextetChar (n : Nat) : Char :=
  if n < 26 then Char.ofNat (65 + n)
  else if n < 52 then Char.ofNat (97 + (n - 26))
  else if n < 62 then Char.ofNat (48 + (n - 52))
  else if n = 62 then '+'
  else '/'

/-- The Base 64 encoding as section 4 of RFC 4648 words it: the input is a stream of
bits, eight per byte, taken six at a time, each group of six being the index of a
character in table 1; a short last group is completed with zero bits, and the output
is padded with `=` to a multiple of four characters. -/
def base64RFC4648 (bytes : List Nat) : Str :=
  (sextets (bytes.flatMap byteBits)).map sextetChar ++
    List.replicate ((4 - (sextets (bytes.flatMap byteBits)).length % 4) % 4) '='

/-! ## Configuration, environment and events -/

/-- The package-level variables read by `SendEmail`. -/
structure Config where
  SMTPServer : Str
  SMTPPort : Int
  SMTPAccount : Str
  SMTPToken : Str
  SMTPFrom : Str
  SMTPSSLEnabled : Bool
  SystemName : Str
  deriving DecidableEq

/-- The value handed to `client.Auth`. -/
inductive Auth
  | LoginAuth (username password : Str)
  | PlainAuth (identity username password host : Str)
  deriving DecidableEq

/-- A failure of a `net/smtp` call that may itself have closed the connection:
`Client.Auth` issues `QUIT` when the mechanism fails, and `Client.Quit` fails
after the `QUIT` command when closing the connection reports an error. -/
structure Failure where
  err : Str
  closedConn : Bool
  deriving DecidableEq

/-- Everything outside the function: the clock, the random suffix, the helper
`isOutlookServer` of the package, and the answers of the network and of the server
to each call.  `none` is a `nil` error.  `rcpt k a` answers the `k`-th `RCPT`
(counted from 0), issued for address `a`. -/
structure Env where
  nowRFC1123Z : Str
  nowUnixNano : Int
  randomString : Str
  isOutlookServer : Str → Bool
  tlsDial : Str → Option Str
  netDial : Str → Option Str
  newClient : Option Str
  extensionSTARTTLS : Bool
  startTLS : Option Str
  auth : Auth → Option Failure
  mail : Str → Option Str
  rcpt : Nat → Str → Option Str
  data : Option Str
  write : Str → Option Str
  closeWriter : Option Str
  quit : Option Failure

/-- One call into `crypto/tls`, `net` or `net/smtp`, with its arguments and answer. -/
inductive Event
  | tlsDial (addr serverName : Str) (err : Option Str)
  | netDial (addr : Str) (err : Option Str)
  | newClient (host : Str) (err : Option Str)
  | extension (ext : Str) (ok : Bool)
  | startTLS (serverName : Str) (err : Option Str)
  | auth (a : Auth) (err : Option Failure)
  | mail (sender : Str) (err : Option Str)
  | rcpt (addr : Str) (err : Option Str)
  | data (err : Option Str)
  | write (msg : Str) (err : Option Str)
  | closeWriter (err : Option Str)
  | quit (err : Option Failure)
  | close
  deriving DecidableEq

/-- How a call of `SendEmail` ends: it returns `nil`, it returns an error with the
text `msg`, or it panics with `index out of range [1] with length 1`, the one
run-time panic in the function. -/
inductive Outcome
  | ok
  | error (msg : Str)
  | indexOutOfRange
  deriving DecidableEq

/-- A finished call: the configuration it leaves, the calls it made, its outcome. -/
structure Result where
  config : Config
  trace : List Event
  outcome : Outcome

/-! ## The source functions -/

/-- `generateMessageID` (lines 18-21): `none` is the index-out-of-range panic of
`strings.Split(SMTPAccount, "@")[1]`; the timestamp is `time.Now().UnixNano()` and the
suffix is `GetRandomString(12)`, both given by the environment. -/
def generateMessageID (cfg : Config) (env : Env) : Option Str :=
  match (Split cfg.SMTPAccount '@')[1]? with
  | none => none
  | some domain =>
    some ("<".toList ++ (toString env.nowUnixNano).toList ++ ".".toList ++ env.randomString ++
      "@".toList ++ domain ++ ">".toList)

/-- The value of `encodedSubject` (line 32). -/
def encodedSubject (subject : Str) : Str :=
  "=?UTF-8?B?".toList ++ EncodeToString (toBytes subject) ++ "?=".toList

/-- The value of `mail` (lines 35-49); `none` when `generateMessageID` panics. -/
def buildMail (cfg : Config) (env : Env) (subject receiver content : Str) : Option Str :=
  match generateMessageID cfg env with
  | none => none
  | some messageID =>
    some ("To: ".toList ++ receiver ++ "\r\n".toList ++
      "From: ".toList ++ cfg.SystemName ++ " <".toList ++ cfg.SMTPFrom ++ ">\r\n".toList ++
      "Subject: ".toList ++ encodedSubject subject ++ "\r\n".toList ++
      "Date: ".toList ++ env.nowRFC1123Z ++ "\r\n".toList ++
      "Message-ID: ".toList ++ messageID ++ "\r\n".toList ++
      "Content-Type: text/html; charset=UTF-8\r\n\r\n".toList ++ content ++ "\r\n".toList)

/-- The loop over the slice `to`, here `tos` (lines 120-125): trim, `RCPT`, stop at the
first rejection.  Returns the calls made and, on a rejection, the text of the error that
`SendEmail` returns.  `k` counts the calls already made. -/
def rcptLoop (env : Env) : Nat → List Str → List Event × Option Str
  | _, [] => ([], none)
  | k, a :: rest =>
    let addr := TrimSpace a
    match env.rcpt k addr with
    | some e =>
      ([Event.rcpt addr (some e)],
        some ("failed to add recipient ".toList ++ addr ++ ": ".toList ++ e))
    | none => (Event.rcpt addr none :: (rcptLoop env (k + 1) rest).1, (rcptLoop env (k + 1) rest).2)

/-- From `client.Data()` to `client.Quit()` and `return nil` (lines 128-149). -/
def transfer (env : Env) (mail : Str) : List Event × Outcome :=
  match env.data with
  | some e => ([Event.data (some e)], Outcome.error ("failed to get data writer: ".toList ++ e))
  | none =>
    match env.write mail with
    | some e =>
      ([Event.data none, Event.write mail (some e)],
        Outcome.error ("failed to write email content: ".toList ++ e))
    | none =>
      match env.closeWriter with
      | some e =>
        ([Event.data none, Event.write mail none, Event.closeWriter (some e)],
          Outcome.error ("failed to close data writer: ".toList ++ e))
      | none =>
        match env.quit with
        | some f =>
          ([Event.data none, Event.write mail none, Event.closeWriter none, Event.quit (some f)],
            Outcome.error ("failed to quit SMTP session: ".toList ++ f.err))
        | none =>
          ([Event.data none, Event.write mail none, Event.closeWriter none, Event.quit none],
            Outcome.ok)

/-- The choice of the authentication mechanism (lines 102-107). -/
def chooseAuth (cfg : Config) (env : Env) : Auth :=
  if env.isOutlookServer cfg.SMTPAccount then Auth.LoginAuth cfg.SMTPAccount cfg.SMTPToken
  else Auth.PlainAuth [] cfg.SMTPAccount cfg.SMTPToken cfg.SMTPServer

/-- The part of `SendEmail` after `defer client.Close()` (lines 101-149), without the
deferred call. -/
def session (cfg : Config) (env : Env) (tos : List Str) (mail : Str) : List Event × Outcome :=
  match env.auth (chooseAuth cfg env) with
  | some f =>
    ([Event.auth (chooseAuth cfg env) (some f)],
      Outcome.error ("authentication failed: ".toList ++ f.err))
  | none =>
    match env.mail cfg.SMTPFrom with
    | some e =>
      ([Event.auth (chooseAuth cfg env) none, Event.mail cfg.SMTPFrom (some e)],
        Outcome.error ("failed to set sender: ".toList ++ e))
    | none =>
      match (rcptLoop env 0 tos).2 with
      | some msg =>
        (Event.auth (chooseAuth cfg env) none :: Event.mail cfg.SMTPFrom none ::
          (rcptLoop env 0 tos).1, Outcome.error msg)
      | none =>
        (Event.auth (chooseAuth cfg env) none :: Event.mail cfg.SMTPFrom none ::
          ((rcptLoop env 0 tos).1 ++ (transfer env mail).1), (transfer env mail).2)

/-- The part of `SendEmail` from the choice of the transport on (lines 57-149); the
deferred `client.Close()` of line 99 is the last call of every run that reaches it. -/
def connect (cfg : Config) (env : Env) (addr : Str) (tos : List Str) (mail : Str) :
    List Event × Outcome :=
  if cfg.SMTPPort = 465 ∨ cfg.SMTPSSLEnabled = true then
    match env.tlsDial addr with
    | some e =>
      ([Event.tlsDial addr cfg.SMTPServer (some e)],
        Outcome.error ("failed to connect via TLS: ".toList ++ e))
    | none =>
      match env.newClient with
      | some e =>
        ([Event.tlsDial addr cfg.SMTPServer none, Event.newClient cfg.SMTPServer (some e)],
          Outcome.error ("failed to create SMTP client: ".toList ++ e))
      | none =>
        (Event.tlsDial addr cfg.SMTPServer none :: Event.newClient cfg.SMTPServer none ::
          ((session cfg env tos mail).1 ++ [Event.close]), (session cfg env tos mail).2)
  else
    match env.netDial addr with
    | some e =>
      ([Event.netDial addr (some e)],
        Outcome.error ("failed to connect to SMTP server: ".toList ++ e))
    | none =>
      match env.newClient with
      | some e =>
        ([Event.netDial addr none, Event.newClient cfg.SMTPServer (some e)],
          Outcome.error ("failed to create SMTP client: ".toList ++ e))
      | none =>
        if env.extensionSTARTTLS = true then
          match env.startTLS with
          | some e =>
            ([Event.netDial addr none, Event.newClient cfg.SMTPServer none,
              Event.extension "STARTTLS".toList true, Event.startTLS cfg.SMTPServer (some e),
              Event.close],
              Outcome.error ("failed to start TLS: ".toList ++ e))
          | none =>
            (Event.netDial addr none :: Event.newClient cfg.SMTPServer none ::
              Event.extension "STARTTLS".toList true :: Event.startTLS cfg.SMTPServer none ::
              ((session cfg env tos mail).1 ++ [Event.close]), (session cfg env tos mail).2)
        else
          (Event.netDial addr none :: Event.newClient cfg.SMTPServer none ::
            Event.extension "STARTTLS".toList false ::
            ((session cfg env tos mail).1 ++ [Event.close]), (session cfg env tos mail).2)

/-- The value of `addr` (line 51): `fmt.Sprintf("%s:%d", SMTPServer, SMTPPort)`. -/
def addrOf (cfg : Config) : Str :=
  cfg.SMTPServer ++ ":".toList ++ (toString cfg.SMTPPort).toList

/-- The assignment `SMTPFrom = SMTPAccount` made when `SMTPFrom` is empty (lines 24-26). -/
def defaultFrom (cfg : Config) : Config :=
  if cfg.SMTPFrom = [] then { cfg with SMTPFrom := cfg.SMTPAccount } else cfg

/-- `SendEmail(subject, receiver, content)` (lines 23-150), on the configuration `cfg`
and in the environment `env`. -/
def SendEmail (cfg : Config) (env : Env) (subject receiver content : Str) : Result :=
  let cfg := defaultFrom cfg
  if cfg.SMTPServer = [] ∨ cfg.SMTPAccount = [] then
    ⟨cfg, [], Outcome.error "SMTP server or account not configured".toList⟩
  else
    match buildMail cfg env subject receiver content with
    | none => ⟨cfg, [], Outcome.indexOutOfRange⟩
    | some mail =>
      let addr := addrOf cfg
      let tos := Split receiver ';'
      ⟨cfg, (connect cfg env addr tos mail).1, (connect cfg env addr tos mail).2⟩

/-! ## Observations on a trace -/

/-- The addresses passed to `client.Rcpt`, in order. -/
def rcptAddrs : List Event → List Str
  | [] => []
  | Event.rcpt addr _ :: rest => addr :: rcptAddrs rest
  | _ :: rest => rcptAddrs rest

/-- A call of `tls.Dial`. -/
def isTLSDial : Event → Bool
  | Event.tlsDial _ _ _ => true
  | _ => false

/-- A call of `net.Dial`. -/
def isNetDial : Event → Bool
  | Event.netDial _ _ => true
  | _ => false

/-- A call of `client.StartTLS`. -/
def isStartTLS : Event → Bool
  | Event.startTLS _ _ => true
  | _ => false

/-- A call of `client.Auth`. -/
def isAuth : Event → Bool
  | Event.auth _ _ => true
  | _ => false

/-- A call of `client.Data`, or a write on the writer it returned. -/
def isDataOrWrite : Event → Bool
  | Event.data _ => true
  | Event.write _ _ => true
  | _ => false

/-- A dial that returned a connection. -/
def isDialOk : Event → Bool
  | Event.tlsDial _ _ none => true
  | Event.netDial _ none => true
  | _ => false

/-- The run established a network connection. -/
def dialSucceeded (tr : List Event) : Bool :=
  tr.any isDialOk

/-- The number of calls of `client.Close()` made by `SendEmail` itself. -/
def closeCalls (tr : List Event) : Nat :=
  tr.count Event.close

/-- The close operations that one call performs on the connection inside `net/smtp`:
`NewClient` closes it when the greeting fails, `Quit` closes it after a successful
`QUIT`, and a failed `Auth` or `Quit` has closed it where its failure says so. -/
def libCloses : Event → Nat
  | Event.newClient _ (some _) => 1
  | Event.quit none => 1
  | Event.quit (some f) => if f.closedConn then 1 else 0
  | Event.auth _ (some f) => if f.closedConn then 1 else 0
  | _ => 0

/-- The close operations that one call performs on the connection: `client.Close()`
is one, and the others are those inside `net/smtp`. -/
def closesOf : Event → Nat
  | Event.close => 1
  | ev => libCloses ev

/-- The number of close operations on the connection made inside `net/smtp`. -/
def libraryCloses (tr : List Event) : Nat :=
  (tr.map libCloses).sum

/-- The number of close operations the connection sees during a run. -/
def connCloses (tr : List Event) : Nat :=
  (tr.map closesOf).sum

/-- The client was constructed: `smtp.NewClient` returned no error. -/
def isClientOk : Event → Bool
  | Event.newClient _ none => true
  | _ => false

/-! ## Sample configurations and environments -/

/-- An environment in which every call succeeds and `STARTTLS` is not advertised. -/
def envOk : Env where
  nowRFC1123Z := "Mon, 02 Jan 2006 15:04:05 -0700".toList
  nowUnixNano := 1136239445000000000
  randomString := "abcdefghijkl".toList
  isOutlookServer := fun _ => false
  tlsDial := fun _ => none
  netDial := fun _ => none
  newClient := none
  extensionSTARTTLS := false
  startTLS := none
  auth := fun _ => none
  mail := fun _ => none
  rcpt := fun _ _ => none
  data := none
  write := fun _ => none
  closeWriter := none
  quit := none

/-- A complete configuration for port 587. -/
def cfg587 : Config where
  SMTPServer := "smtp.x.com".toList
  SMTPPort := 587
  SMTPAccount := "noreply@x.com".toList
  SMTPToken := "secret".toList
  SMTPFrom := "noreply@x.com".toList
  SMTPSSLEnabled := false
  SystemName := "New API".toList

/-- Calls made after the `defer`: none is a dial, a `STARTTLS` or a `Close`. -/
def isSessionCall : Event → Bool
  | Event.auth _ _ => true
  | Event.mail _ _ => true
  | Event.rcpt _ _ => true
  | Event.data _ => true
  | Event.write _ _ => true
  | Event.closeWriter _ => true
  | Event.quit _ => true
  | _ => false

/-- An environment in which the server rejects the credentials and `net/smtp`, as
`Client.Auth` documents, closes the connection. -/
def envAuthFail : Env :=
  { envOk with auth := fun _ => some ⟨"535 authentication failed".toList, true⟩ }

/-- An environment in which the server greeting fails. -/
def envGreetingFail : Env :=
  { envOk with newClient := some "421 service not available".toList }

/-- Port 465 and an account without `@`. -/
def cfg465NoAt : Config :=
  { cfg587 with SMTPPort := 465, SMTPAccount := "noreply".toList }

/-- Port 587 with the implicit-TLS flag set. -/
def cfg587SSL : Config :=
  { cfg587 with SMTPSSLEnabled := true }

/-- The sample configuration with no distinct sender address. -/
def cfgNoFrom : Config :=
  { cfg587 with SMTPFrom := [] }

/-- A configuration whose account has no `@`. -/
def cfgNoAt : Config :=
  { cfg587 with SMTPAccount := "noreply".toList }

/-- A configuration whose account has two `@`. -/
def cfgTwoAt : Config :=
  { cfg587 with SMTPAccount := "a@b@c".toList }

/-- An environment that accepts the first recipient and rejects the second. -/
def envRejectSecond : Env :=
  { envOk with rcpt := fun k _ => if k = 1 then some "550 no such user".toList else none }

/-! ## Lemmas -/

theorem Split_ne_nil (s : Str) (sep : Char) : Split s sep ≠ [] := by
  induction s with
  | nil => simp [Split]
  | cons c cs ih =>
    unfold Split
    split
    · simp
    · split <;> simp

theorem Split_length (s : Str) (sep : Char) : (Split s sep).length = s.count sep + 1 := by
  induction s with
  | nil => simp [Split]
  | cons c cs ih =>
    unfold Split
    by_cases h : c = sep
    · subst h
      simp [ih]
    · rw [if_neg h, List.count_cons_of_ne (Ne.symm h)]
      cases hs : Split cs sep with
      | nil => exact absurd hs (Split_ne_nil cs sep)
      | cons p ps => rw [hs] at ih; simpa using ih

theorem Split_cons_sep (cs : Str) (sep : Char) : Split (sep :: cs) sep = [] :: Split cs sep := by
  rw [Split, if_pos rfl]

theorem Split_cons_ne (c : Char) (cs : Str) (sep : Char) (h : c ≠ sep) (p : Str) (ps : List Str)
    (hs : Split cs sep = p :: ps) : Split (c :: cs) sep = (c :: p) :: ps := by
  rw [Split, if_neg h, hs]

theorem Split_of_not_mem (s : Str) (sep : Char) (h : sep ∉ s) : Split s sep = [s] := by
  induction s with
  | nil => simp [Split]
  | cons c cs ih =>
    simp only [List.mem_cons, not_or] at h
    exact Split_cons_ne c cs sep (Ne.symm h.1) cs [] (ih h.2)

theorem Split_append_sep (pre rest : Str) (sep : Char) (h : sep ∉ pre) :
    Split (pre ++ sep :: rest) sep = pre :: Split rest sep := by
  induction pre with
  | nil => exact Split_cons_sep rest sep
  | cons c cs ih =>
    simp only [List.mem_cons, not_or] at h
    exact Split_cons_ne c _ sep (Ne.symm h.1) cs _ (ih h.2)

theorem Split_get_one_isSome (s : Str) (sep : Char) :
    (Split s sep)[1]? ≠ none ↔ sep ∈ s := by
  rw [← List.count_pos_iff, Ne, List.getElem?_eq_none_iff, Split_length]
  omega

theorem defaultFrom_server (cfg : Config) : (defaultFrom cfg).SMTPServer = cfg.SMTPServer := by
  unfold defaultFrom; split <;> rfl

theorem defaultFrom_account (cfg : Config) : (defaultFrom cfg).SMTPAccount = cfg.SMTPAccount := by
  unfold defaultFrom; split <;> rfl

theorem defaultFrom_port (cfg : Config) : (defaultFrom cfg).SMTPPort = cfg.SMTPPort := by
  unfold defaultFrom; split <;> rfl

theorem defaultFrom_ssl (cfg : Config) :
    (defaultFrom cfg).SMTPSSLEnabled = cfg.SMTPSSLEnabled := by
  unfold defaultFrom; split <;> rfl

theorem SendEmail_config (cfg : Config) (env : Env) (subject receiver content : Str) :
    (SendEmail cfg env subject receiver content).config = defaultFrom cfg := by
  unfold SendEmail
  simp only
  split
  · rfl
  · split <;> rfl

theorem generateMessageID_isSome (cfg : Config) (env : Env) :
    generateMessageID cfg env ≠ none ↔ '@' ∈ cfg.SMTPAccount := by
  rw [← Split_get_one_isSome]
  unfold generateMessageID
  split <;> simp_all

theorem buildMail_isSome (cfg : Config) (env : Env) (subject receiver content : Str) :
    buildMail cfg env subject receiver content ≠ none ↔ '@' ∈ cfg.SMTPAccount := by
  rw [← generateMessageID_isSome cfg env]
  unfold buildMail
  split <;> simp_all

theorem SendEmail_of_unconfigured (cfg : Config) (env : Env) (subject receiver content : Str)
    (h : cfg.SMTPServer = [] ∨ cfg.SMTPAccount = []) :
    (SendEmail cfg env subject receiver content).trace = [] ∧
      (SendEmail cfg env subject receiver content).outcome ≠ Outcome.ok := by
  unfold SendEmail
  simp only [defaultFrom_server, defaultFrom_account, if_pos h]
  simp

theorem SendEmail_of_mail (cfg : Config) (env : Env) (subject receiver content mail : Str)
    (hs : cfg.SMTPServer ≠ []) (ha : cfg.SMTPAccount ≠ [])
    (hm : buildMail (defaultFrom cfg) env subject receiver content = some mail) :
    (SendEmail cfg env subject receiver content).trace =
        (connect (defaultFrom cfg) env (addrOf (defaultFrom cfg)) (Split receiver ';') mail).1 ∧
      (SendEmail cfg env subject receiver content).outcome =
        (connect (defaultFrom cfg) env (addrOf (defaultFrom cfg)) (Split receiver ';') mail).2 := by
  unfold SendEmail
  simp only [defaultFrom_server, defaultFrom_account, hs, ha, or_self, if_false, hm, and_self]

theorem SendEmail_panic (cfg : Config) (env : Env) (subject receiver content : Str)
    (hs : cfg.SMTPServer ≠ []) (ha : cfg.SMTPAccount ≠ [])
    (hm : buildMail (defaultFrom cfg) env subject receiver content = none) :
    (SendEmail cfg env subject receiver content).trace = [] ∧
      (SendEmail cfg env subject receiver content).outcome = Outcome.indexOutOfRange := by
  unfold SendEmail
  simp only [defaultFrom_server, defaultFrom_account, hs, ha, or_self, if_false, hm, and_self]

/-- The trace is empty or comes from `connect`. -/
theorem SendEmail_trace_cases (cfg : Config) (env : Env) (subject receiver content : Str) :
    ((SendEmail cfg env subject receiver content).trace = [] ∧
        (SendEmail cfg env subject receiver content).outcome ≠ Outcome.ok) ∨
      ∃ mail, buildMail (defaultFrom cfg) env subject receiver content = some mail ∧
        (SendEmail cfg env subject receiver content).trace =
          (connect (defaultFrom cfg) env (addrOf (defaultFrom cfg)) (Split receiver ';') mail).1 ∧
        (SendEmail cfg env subject receiver content).outcome =
          (connect (defaultFrom cfg) env (addrOf (defaultFrom cfg)) (Split receiver ';') mail).2 := by
  by_cases h : cfg.SMTPServer = [] ∨ cfg.SMTPAccount = []
  · left
    exact SendEmail_of_unconfigured cfg env subject receiver content h
  · rw [not_or] at h
    cases hm : buildMail (defaultFrom cfg) env subject receiver content with
    | none =>
      left
      have := SendEmail_panic cfg env subject receiver content h.1 h.2 hm
      rw [this.1, this.2]
      simp
    | some mail =>
      right
      exact ⟨mail, rfl, SendEmail_of_mail cfg env subject receiver content mail h.1 h.2 hm⟩

/-- The accepted `RCPT` calls for a list of pieces. -/
theorem rcptLoop_cases (env : Env) (tos : List Str) : ∀ k : Nat,
    ((rcptLoop env k tos).2 = none ∧
        (rcptLoop env k tos).1 = tos.map (fun a => Event.rcpt (TrimSpace a) none)) ∨
      ∃ pre a post e, tos = pre ++ a :: post ∧
        env.rcpt (k + pre.length) (TrimSpace a) = some e ∧
        (rcptLoop env k tos).1 =
          pre.map (fun a => Event.rcpt (TrimSpace a) none) ++ [Event.rcpt (TrimSpace a) (some e)] ∧
        (rcptLoop env k tos).2 =
          some ("failed to add recipient ".toList ++ TrimSpace a ++ ": ".toList ++ e) := by
  induction tos with
  | nil => intro k; left; simp [rcptLoop]
  | cons a rest ih =>
    intro k
    cases h : env.rcpt k (TrimSpace a) with
    | some e =>
      right
      refine ⟨[], a, rest, e, rfl, by simpa using h, ?_, ?_⟩ <;> simp [rcptLoop, h]
    | none =>
      rcases ih (k + 1) with ⟨h2, h1⟩ | ⟨pre, x, post, e, htos, he, h1, h2⟩
      · left
        simp [rcptLoop, h, h1, h2]
      · right
        refine ⟨a :: pre, x, post, e, by simp [htos], ?_, ?_, ?_⟩
        · rw [← he]; congr 1; simp; omega
        · simp [rcptLoop, h, h1]
        · simp [rcptLoop, h, h2]

theorem session_cases (cfg : Config) (env : Env) (tos : List Str) (mail : Str) :
    (∃ f, env.auth (chooseAuth cfg env) = some f ∧ session cfg env tos mail =
        ([Event.auth (chooseAuth cfg env) (some f)],
          Outcome.error ("authentication failed: ".toList ++ f.err))) ∨
    (∃ e, session cfg env tos mail =
        ([Event.auth (chooseAuth cfg env) none, Event.mail cfg.SMTPFrom (some e)],
          Outcome.error ("failed to set sender: ".toList ++ e))) ∨
    (∃ pre a post e, tos = pre ++ a :: post ∧
        env.rcpt pre.length (TrimSpace a) = some e ∧
        session cfg env tos mail =
        (Event.auth (chooseAuth cfg env) none :: Event.mail cfg.SMTPFrom none ::
          (pre.map (fun a => Event.rcpt (TrimSpace a) none) ++
            [Event.rcpt (TrimSpace a) (some e)]),
          Outcome.error ("failed to add recipient ".toList ++ TrimSpace a ++ ": ".toList ++ e))) ∨
    session cfg env tos mail =
        (Event.auth (chooseAuth cfg env) none :: Event.mail cfg.SMTPFrom none ::
          (tos.map (fun a => Event.rcpt (TrimSpace a) none) ++ (transfer env mail).1),
          (transfer env mail).2) := by
  unfold session
  cases ha : env.auth (chooseAuth cfg env) with
  | some f => left; exact ⟨f, rfl, rfl⟩
  | none =>
    right
    cases hm : env.mail cfg.SMTPFrom with
    | some e => left; exact ⟨e, rfl⟩
    | none =>
      right
      rcases rcptLoop_cases env tos 0 with ⟨h2, h1⟩ | ⟨pre, x, post, e, htos, he, h1, h2⟩
      · right
        simp only [h1, h2]
      · left
        refine ⟨pre, x, post, e, htos, by simpa using he, ?_⟩
        simp only [h1, h2]

theorem transfer_cases (env : Env) (mail : Str) :
    (∃ e, transfer env mail = ([Event.data (some e)],
        Outcome.error ("failed to get data writer: ".toList ++ e))) ∨
    (∃ e, transfer env mail = ([Event.data none, Event.write mail (some e)],
        Outcome.error ("failed to write email content: ".toList ++ e))) ∨
    (∃ e, transfer env mail =
        ([Event.data none, Event.write mail none, Event.closeWriter (some e)],
        Outcome.error ("failed to close data writer: ".toList ++ e))) ∨
    (∃ f, transfer env mail =
        ([Event.data none, Event.write mail none, Event.closeWriter none, Event.quit (some f)],
        Outcome.error ("failed to quit SMTP session: ".toList ++ f.err))) ∨
    transfer env mail =
        ([Event.data none, Event.write mail none, Event.closeWriter none, Event.quit none],
        Outcome.ok) := by
  unfold transfer
  cases env.data with
  | some e => left; exact ⟨e, rfl⟩
  | none =>
    right
    cases env.write mail with
    | some e => left; exact ⟨e, rfl⟩
    | none =>
      right
      cases env.closeWriter with
      | some e => left; exact ⟨e, rfl⟩
      | none =>
        right
        cases env.quit with
        | some f => left; exact ⟨f, rfl⟩
        | none => right; rfl

theorem connect_tls (cfg : Config) (env : Env) (addr : Str) (tos : List Str) (mail : Str)
    (h : cfg.SMTPPort = 465 ∨ cfg.SMTPSSLEnabled = true) :
    (∃ e, connect cfg env addr tos mail =
        ([Event.tlsDial addr cfg.SMTPServer (some e)],
          Outcome.error ("failed to connect via TLS: ".toList ++ e))) ∨
    (∃ e, connect cfg env addr tos mail =
        ([Event.tlsDial addr cfg.SMTPServer none, Event.newClient cfg.SMTPServer (some e)],
          Outcome.error ("failed to create SMTP client: ".toList ++ e))) ∨
    connect cfg env addr tos mail =
        (Event.tlsDial addr cfg.SMTPServer none :: Event.newClient cfg.SMTPServer none ::
          ((session cfg env tos mail).1 ++ [Event.close]), (session cfg env tos mail).2) := by
  unfold connect
  rw [if_pos h]
  cases env.tlsDial addr with
  | some e => left; exact ⟨e, rfl⟩
  | none =>
    right
    cases env.newClient with
    | some e => left; exact ⟨e, rfl⟩
    | none => right; rfl

theorem connect_plain (cfg : Config) (env : Env) (addr : Str) (tos : List Str) (mail : Str)
    (h : ¬ (cfg.SMTPPort = 465 ∨ cfg.SMTPSSLEnabled = true)) :
    (∃ e, env.netDial addr = some e ∧ connect cfg env addr tos mail =
        ([Event.netDial addr (some e)],
          Outcome.error ("failed to connect to SMTP server: ".toList ++ e))) ∨
    (∃ e, env.netDial addr = none ∧ env.newClient = some e ∧ connect cfg env addr tos mail =
        ([Event.netDial addr none, Event.newClient cfg.SMTPServer (some e)],
          Outcome.error ("failed to create SMTP client: ".toList ++ e))) ∨
    (∃ e, env.extensionSTARTTLS = true ∧ connect cfg env addr tos mail =
        ([Event.netDial addr none, Event.newClient cfg.SMTPServer none,
          Event.extension "STARTTLS".toList true, Event.startTLS cfg.SMTPServer (some e),
          Event.close],
          Outcome.error ("failed to start TLS: ".toList ++ e))) ∨
    (env.extensionSTARTTLS = true ∧ connect cfg env addr tos mail =
        (Event.netDial addr none :: Event.newClient cfg.SMTPServer none ::
          Event.extension "STARTTLS".toList true :: Event.startTLS cfg.SMTPServer none ::
          ((session cfg env tos mail).1 ++ [Event.close]), (session cfg env tos mail).2)) ∨
    (env.extensionSTARTTLS = false ∧ connect cfg env addr tos mail =
        (Event.netDial addr none :: Event.newClient cfg.SMTPServer none ::
          Event.extension "STARTTLS".toList false ::
          ((session cfg env tos mail).1 ++ [Event.close]), (session cfg env tos mail).2)) := by
  unfold connect
  rw [if_neg h]
  cases hd : env.netDial addr with
  | some e => left; exact ⟨e, rfl, rfl⟩
  | none =>
    right
    cases hn : env.newClient with
    | some e => left; exact ⟨e, rfl, rfl, rfl⟩
    | none =>
      right
      cases hx : env.extensionSTARTTLS with
      | true =>
        cases env.startTLS with
        | some e => left; exact ⟨e, rfl, rfl⟩
        | none => right; left; exact ⟨rfl, rfl⟩
      | false => right; right; exact ⟨rfl, by simp⟩

theorem transfer_calls (env : Env) (mail : Str) :
    ∀ ev ∈ (transfer env mail).1, isSessionCall ev = true := by
  rcases transfer_cases env mail with ⟨e, h⟩ | ⟨e, h⟩ | ⟨e, h⟩ | ⟨e, h⟩ | h <;>
    simp [h, isSessionCall]

theorem session_calls (cfg : Config) (env : Env) (tos : List Str) (mail : Str) :
    ∀ ev ∈ (session cfg env tos mail).1, isSessionCall ev = true := by
  have ht := transfer_calls env mail
  rcases session_cases cfg env tos mail with ⟨f, -, h⟩ | ⟨e, h⟩ | ⟨pre, a, post, e, -, -, h⟩ | h
  · simp [h, isSessionCall]
  · simp [h, isSessionCall]
  · rw [h]
    intro ev hev
    simp only [List.mem_cons, List.mem_append, List.mem_map, List.mem_singleton,
      List.not_mem_nil, or_false] at hev
    rcases hev with rfl | rfl | ⟨x, -, rfl⟩ | rfl <;> simp [isSessionCall]
  · rw [h]
    intro ev hev
    simp only [List.mem_cons, List.mem_append, List.mem_map, List.mem_singleton] at hev
    rcases hev with rfl | rfl | ⟨x, -, rfl⟩ | hev
    · simp [isSessionCall]
    · simp [isSessionCall]
    · simp [isSessionCall]
    · exact ht ev hev

theorem session_head (cfg : Config) (env : Env) (tos : List Str) (mail : Str) :
    ∃ rest, (session cfg env tos mail).1 =
      Event.auth (chooseAuth cfg env) (env.auth (chooseAuth cfg env)) :: rest := by
  unfold session
  cases env.auth (chooseAuth cfg env) with
  | some f => exact ⟨_, rfl⟩
  | none =>
    simp only
    split
    · exact ⟨_, rfl⟩
    · split <;> exact ⟨_, rfl⟩

theorem addrOf_defaultFrom (cfg : Config) : addrOf (defaultFrom cfg) = addrOf cfg := by
  unfold addrOf
  rw [defaultFrom_server, defaultFrom_port]

theorem SendEmail_connect (cfg : Config) (env : Env) (subject receiver content : Str)
    (hs : cfg.SMTPServer ≠ []) (ha : '@' ∈ cfg.SMTPAccount) :
    ∃ mail, buildMail (defaultFrom cfg) env subject receiver content = some mail ∧
      (SendEmail cfg env subject receiver content).trace =
        (connect (defaultFrom cfg) env (addrOf cfg) (Split receiver ';') mail).1 ∧
      (SendEmail cfg env subject receiver content).outcome =
        (connect (defaultFrom cfg) env (addrOf cfg) (Split receiver ';') mail).2 := by
  have hne : cfg.SMTPAccount ≠ [] := by
    intro h0
    rw [h0] at ha
    exact absurd ha (List.not_mem_nil _)
  have hb : buildMail (defaultFrom cfg) env subject receiver content ≠ none := by
    rw [buildMail_isSome, defaultFrom_account]
    exact ha
  cases hm : buildMail (defaultFrom cfg) env subject receiver content with
  | none => exact absurd hm hb
  | some mail =>
    have := SendEmail_of_mail cfg env subject receiver content mail hs hne hm
    rw [addrOf_defaultFrom] at this
    exact ⟨mail, rfl, this⟩

theorem rcptAddrs_append (l₁ l₂ : List Event) :
    rcptAddrs (l₁ ++ l₂) = rcptAddrs l₁ ++ rcptAddrs l₂ := by
  induction l₁ with
  | nil => rfl
  | cons ev rest ih => cases ev <;> simp [rcptAddrs, ih]

theorem rcptAddrs_map_accepted (f : Str → Str) (l : List Str) :
    rcptAddrs (l.map (fun a => Event.rcpt (f a) none)) = l.map f := by
  induction l with
  | nil => rfl
  | cons a rest ih => simp [rcptAddrs, ih]

theorem rcptAddrs_transfer (env : Env) (mail : Str) : rcptAddrs (transfer env mail).1 = [] := by
  rcases transfer_cases env mail with ⟨e, h⟩ | ⟨e, h⟩ | ⟨e, h⟩ | ⟨e, h⟩ | h <;>
    simp [h, rcptAddrs]

theorem rcptAddrs_of_no_session_call (l : List Event)
    (h : ∀ ev ∈ l, isSessionCall ev = false) : rcptAddrs l = [] := by
  induction l with
  | nil => rfl
  | cons ev rest ih =>
    have h1 := h ev (List.mem_cons_self _ _)
    have h2 := ih (fun x hx => h x (List.mem_cons_of_mem _ hx))
    cases ev <;> simp_all [rcptAddrs, isSessionCall]

/-- Either `connect` stops before the `defer` and makes none of the calls of the
session, or its trace is a head of such calls, the session, and the deferred close. -/
theorem connect_shape (cfg : Config) (env : Env) (addr : Str) (tos : List Str) (mail : Str) :
    ((∀ ev ∈ (connect cfg env addr tos mail).1, isSessionCall ev = false) ∧
        (connect cfg env addr tos mail).2 ≠ Outcome.ok) ∨
      ∃ head, (connect cfg env addr tos mail).1 =
          head ++ (session cfg env tos mail).1 ++ [Event.close] ∧
        (connect cfg env addr tos mail).2 = (session cfg env tos mail).2 ∧
        ∀ ev ∈ head, isSessionCall ev = false := by
  by_cases hp : cfg.SMTPPort = 465 ∨ cfg.SMTPSSLEnabled = true
  · rcases connect_tls cfg env addr tos mail hp with ⟨e, h⟩ | ⟨e, h⟩ | h
    · left; simp [h, isSessionCall]
    · left; simp [h, isSessionCall]
    · right
      exact ⟨[Event.tlsDial addr cfg.SMTPServer none, Event.newClient cfg.SMTPServer none],
        by rw [h]; simp, by rw [h], by simp [isSessionCall]⟩
  · rcases connect_plain cfg env addr tos mail hp with
      ⟨e, -, h⟩ | ⟨e, -, -, h⟩ | ⟨e, -, h⟩ | ⟨-, h⟩ | ⟨-, h⟩
    · left; simp [h, isSessionCall]
    · left; simp [h, isSessionCall]
    · left; simp [h, isSessionCall]
    · right
      exact ⟨[Event.netDial addr none, Event.newClient cfg.SMTPServer none,
          Event.extension "STARTTLS".toList true, Event.startTLS cfg.SMTPServer none],
        by rw [h]; simp, by rw [h], by simp [isSessionCall]⟩
    · right
      exact ⟨[Event.netDial addr none, Event.newClient cfg.SMTPServer none,
          Event.extension "STARTTLS".toList false],
        by rw [h]; simp, by rw [h], by simp [isSessionCall]⟩

/-- A rejected `RCPT` in the session is its last call. -/
theorem session_rejected (cfg : Config) (env : Env) (tos : List Str) (mail addr e : Str)
    (h : Event.rcpt addr (some e) ∈ (session cfg env tos mail).1) :
    ∃ pre a post, tos = pre ++ a :: post ∧ addr = TrimSpace a ∧
      session cfg env tos mail =
        (Event.auth (chooseAuth cfg env) none :: Event.mail cfg.SMTPFrom none ::
          (pre.map (fun a => Event.rcpt (TrimSpace a) none) ++ [Event.rcpt addr (some e)]),
          Outcome.error ("failed to add recipient ".toList ++ addr ++ ": ".toList ++ e)) := by
  rcases session_cases cfg env tos mail with
    ⟨f, -, hs⟩ | ⟨e', hs⟩ | ⟨pre, a, post, e', htos, -, hs⟩ | hs
  · rw [hs] at h; simp at h
  · rw [hs] at h; simp at h
  · rw [hs] at h
    simp only [List.mem_cons, List.mem_append, List.mem_map, List.mem_singleton,
      List.not_mem_nil, or_false] at h
    rcases h with h | h | ⟨x, -, h⟩ | h
    · cases h
    · cases h
    · cases h
    · cases h
      exact ⟨pre, a, post, htos, rfl, hs⟩
  · rw [hs] at h
    simp only [List.mem_cons, List.mem_append, List.mem_map] at h
    rcases h with h | h | ⟨x, -, h⟩ | h
    · cases h
    · cases h
    · cases h
    · exfalso
      rcases transfer_cases env mail with ⟨e', ht⟩ | ⟨e', ht⟩ | ⟨e', ht⟩ | ⟨e', ht⟩ | ht <;>
        · rw [ht] at h; simp at h

theorem Split_not_mem (s : Str) (sep : Char) : ∀ p ∈ Split s sep, sep ∉ p := by
  induction s with
  | nil => simp [Split]
  | cons c cs ih =>
    by_cases hc : c = sep
    · subst hc
      rw [Split_cons_sep]
      intro p hp
      rcases List.mem_cons.mp hp with rfl | hp
      · simp
      · exact ih p hp
    · cases hs : Split cs c with
      | nil => exact absurd hs (Split_ne_nil cs c)
      | cons q qs =>
        cases hs2 : Split cs sep with
        | nil => exact absurd hs2 (Split_ne_nil cs sep)
        | cons p ps =>
          rw [Split_cons_ne c cs sep hc p ps hs2]
          intro x hx
          rcases List.mem_cons.mp hx with rfl | hx
          · have := ih p (by rw [hs2]; exact List.mem_cons_self _ _)
            simp only [List.mem_cons, not_or]
            exact ⟨Ne.symm hc, this⟩
          · exact ih x (by rw [hs2]; exact List.mem_cons_of_mem _ hx)

theorem TrimSpace_sublist (s : Str) : (TrimSpace s).Sublist s := by
  unfold TrimSpace
  exact (((List.dropWhile_sublist isSpace).reverse).trans
    ((List.dropWhile_sublist isSpace).reverse.reverse.trans (by simp)))

theorem TrimSpace_head (s : Str) (c : Char) (h : (TrimSpace s).head? = some c) :
    isSpace c = false := by
  have hpre : TrimSpace s <+: s.dropWhile isSpace := by
    unfold TrimSpace
    exact List.rdropWhile_prefix isSpace (s.dropWhile isSpace)
  obtain ⟨t, ht⟩ := hpre
  have hnot := List.head?_dropWhile_not isSpace s
  rw [← ht] at hnot
  cases hT : TrimSpace s with
  | nil => rw [hT] at h; simp at h
  | cons x r =>
    rw [hT] at h hnot
    simp only [List.head?_cons, Option.some.injEq] at h
    subst h
    simpa using hnot

theorem TrimSpace_last (s : Str) (c : Char) (h : (TrimSpace s).getLast? = some c) :
    isSpace c = false := by
  unfold TrimSpace at h
  rw [List.getLast?_reverse] at h
  have hnot := List.head?_dropWhile_not isSpace (s.dropWhile isSpace).reverse
  rw [h] at hnot
  exact hnot

theorem rcptAddrs_session (cfg : Config) (env : Env) (tos : List Str) (mail : Str) :
    rcptAddrs (session cfg env tos mail).1 <+: tos.map TrimSpace ∧
      ((session cfg env tos mail).2 = Outcome.ok →
        rcptAddrs (session cfg env tos mail).1 = tos.map TrimSpace) := by
  rcases session_cases cfg env tos mail with
    ⟨f, -, hs⟩ | ⟨e', hs⟩ | ⟨pre, a, post, e', htos, -, hs⟩ | hs
  · rw [hs]; simp [rcptAddrs]
  · rw [hs]; simp [rcptAddrs]
  · rw [hs, htos]
    simp only [rcptAddrs, rcptAddrs_append, rcptAddrs_map_accepted, List.map_append,
      List.map_cons, reduceCtorEq, false_implies, and_true]
    exact ⟨post.map TrimSpace, by simp⟩
  · rw [hs]
    simp [rcptAddrs, rcptAddrs_append, rcptAddrs_map_accepted, rcptAddrs_transfer]

theorem connCloses_append (l₁ l₂ : List Event) :
    connCloses (l₁ ++ l₂) = connCloses l₁ + connCloses l₂ := by
  simp [connCloses]

theorem libraryCloses_append (l₁ l₂ : List Event) :
    libraryCloses (l₁ ++ l₂) = libraryCloses l₁ + libraryCloses l₂ := by
  simp [libraryCloses]

theorem closeCalls_append (l₁ l₂ : List Event) :
    closeCalls (l₁ ++ l₂) = closeCalls l₁ + closeCalls l₂ := by
  simp [closeCalls]

theorem closes_of_session_calls (l : List Event) (h : ∀ ev ∈ l, isSessionCall ev = true) :
    closeCalls l = 0 ∧ connCloses l = libraryCloses l ∧ ∀ ev ∈ l, isClientOk ev = false := by
  induction l with
  | nil => simp [closeCalls, connCloses, libraryCloses]
  | cons ev rest ih =>
    have h1 := h ev (List.mem_cons_self _ _)
    obtain ⟨i1, i2, i3⟩ := ih (fun x hx => h x (List.mem_cons_of_mem _ hx))
    simp only [closeCalls, connCloses, libraryCloses] at i1 i2 ⊢
    cases ev <;> simp_all [isSessionCall, closesOf, isClientOk, List.count_cons]

theorem libraryCloses_transfer (env : Env) (mail : Str) :
    libraryCloses (transfer env mail).1 ≤ 1 := by
  rcases transfer_cases env mail with ⟨e, h⟩ | ⟨e, h⟩ | ⟨e, h⟩ | ⟨f, h⟩ | h <;>
    simp [h, libraryCloses, libCloses]
  split <;> simp

theorem libraryCloses_cons (ev : Event) (l : List Event) :
    libraryCloses (ev :: l) = libCloses ev + libraryCloses l := by
  simp [libraryCloses]

theorem libraryCloses_accepted (l : List Str) :
    libraryCloses (l.map (fun a => Event.rcpt (TrimSpace a) none)) = 0 := by
  induction l with
  | nil => rfl
  | cons a rest ih =>
    rw [List.map_cons, libraryCloses_cons, ih]
    rfl

theorem libraryCloses_session (cfg : Config) (env : Env) (tos : List Str) (mail : Str) :
    libraryCloses (session cfg env tos mail).1 ≤ 1 := by
  rcases session_cases cfg env tos mail with
    ⟨f, -, hs⟩ | ⟨e', hs⟩ | ⟨pre, a, post, e', -, -, hs⟩ | hs
  · rw [hs]; simp [libraryCloses, libCloses]; split <;> simp
  · rw [hs]; simp [libraryCloses, libCloses]
  · rw [hs]
    simp only [libraryCloses_cons, libraryCloses_append, libraryCloses_accepted]
    simp [libraryCloses, libCloses]
  · rw [hs]
    have h2 := libraryCloses_transfer env mail
    simp only [libraryCloses_cons, libraryCloses_append, libraryCloses_accepted]
    simp only [libCloses]
    omega

/-- The trace `head ++ session ++ [close]` of a run that reached the `defer`. -/
theorem closes_of_deferred (head sess : List Event)
    (hh : ∀ ev ∈ head, closesOf ev = 0 ∧ libCloses ev = 0 ∧ ev ≠ Event.close)
    (hs : ∀ ev ∈ sess, isSessionCall ev = true) (hl : libraryCloses sess ≤ 1) :
    connCloses (head ++ sess ++ [Event.close]) =
        closeCalls (head ++ sess ++ [Event.close]) + libraryCloses (head ++ sess ++ [Event.close]) ∧
      1 ≤ connCloses (head ++ sess ++ [Event.close]) ∧
      connCloses (head ++ sess ++ [Event.close]) ≤ 2 ∧
      closeCalls (head ++ sess ++ [Event.close]) = 1 ∧
      (head ++ sess ++ [Event.close]).getLast? = some Event.close ∧
      libraryCloses (head ++ sess ++ [Event.close]) ≤ 1 := by
  obtain ⟨s1, s2, -⟩ := closes_of_session_calls sess hs
  have h1 : connCloses head = 0 := by
    simp only [connCloses]
    apply List.sum_eq_zero
    intro x hx
    obtain ⟨ev, hev, rfl⟩ := List.mem_map.mp hx
    exact (hh ev hev).1
  have h2 : libraryCloses head = 0 := by
    simp only [libraryCloses]
    apply List.sum_eq_zero
    intro x hx
    obtain ⟨ev, hev, rfl⟩ := List.mem_map.mp hx
    exact (hh ev hev).2.1
  have h3 : closeCalls head = 0 := by
    simp only [closeCalls]
    rw [List.count_eq_zero]
    intro hmem
    exact (hh _ hmem).2.2 rfl
  have h4 : connCloses [Event.close] = 1 := rfl
  have h5 : libraryCloses [Event.close] = 0 := rfl
  have h6 : closeCalls [Event.close] = 1 := by simp [closeCalls]
  rw [connCloses_append, connCloses_append, closeCalls_append, closeCalls_append,
    libraryCloses_append, libraryCloses_append, h1, h2, h3, h4, h5, h6, s1, s2]
  refine ⟨by omega, by omega, by omega, by omega, by simp, by omega⟩

/-- The conclusions on the closes for a run that reached the `defer`. -/
theorem closes_of_deferred_run (head sess : List Event)
    (hh : ∀ ev ∈ head, closesOf ev = 0 ∧ libCloses ev = 0 ∧ ev ≠ Event.close)
    (hok : ∃ ev ∈ head, isClientOk ev = true)
    (hs : ∀ ev ∈ sess, isSessionCall ev = true) (hl : libraryCloses sess ≤ 1) :
    connCloses (head ++ sess ++ [Event.close]) =
        closeCalls (head ++ sess ++ [Event.close]) + libraryCloses (head ++ sess ++ [Event.close]) ∧
      1 ≤ connCloses (head ++ sess ++ [Event.close]) ∧
      connCloses (head ++ sess ++ [Event.close]) ≤ 2 ∧
      ((∃ ev ∈ head ++ sess ++ [Event.close], isClientOk ev = true) →
        closeCalls (head ++ sess ++ [Event.close]) = 1 ∧
        (head ++ sess ++ [Event.close]).getLast? = some Event.close ∧
        libraryCloses (head ++ sess ++ [Event.close]) ≤ 1) ∧
      ((∀ ev ∈ head ++ sess ++ [Event.close], isClientOk ev = false) →
        closeCalls (head ++ sess ++ [Event.close]) = 0 ∧
        libraryCloses (head ++ sess ++ [Event.close]) = 1 ∧
        ∃ host e, (head ++ sess ++ [Event.close]).getLast? =
          some (Event.newClient host (some e))) := by
  obtain ⟨c1, c2, c3, c4, c5, c6⟩ := closes_of_deferred head sess hh hs hl
  refine ⟨c1, c2, c3, fun _ => ⟨c4, c5, c6⟩, fun hno => ?_⟩
  obtain ⟨ev, hev, hevok⟩ := hok
  have := hno ev (by simp [hev])
  rw [hevok] at this
  cases this

/-- The model of `EncodeToString` on the test vectors of RFC 4648, and the model of
`[]byte(s)` on code points of one, two, three and four bytes. -/
theorem EncodeToString_samples :
    EncodeToString (toBytes "f".toList) = "Zg==".toList ∧
      EncodeToString (toBytes "fo".toList) = "Zm8=".toList ∧
      EncodeToString (toBytes "foo".toList) = "Zm9v".toList ∧
      EncodeToString (toBytes "foob".toList) = "Zm9vYg==".toList ∧
      EncodeToString (toBytes "fooba".toList) = "Zm9vYmE=".toList ∧
      EncodeToString (toBytes "foobar".toList) = "Zm9vYmFy".toList ∧
      toBytes "aé€😀".toList = [0x61, 0xC3, 0xA9, 0xE2, 0x82, 0xAC, 0xF0, 0x9F, 0x98, 0x80] := by
  decide

theorem b64Val_b64Char (n : Nat) (h : n < 64) : b64Val (b64Char n) = some n := by
  interval_cases n <;> decide

theorem b64Char_ne_pad (n : Nat) : b64Char n ≠ '=' := by
  by_cases h : n < 64
  · interval_cases n <;> decide
  · have : b64Char n = 'A' := by
      unfold b64Char
      rw [List.getD_eq_default]
      simp only [encodeStd]
      have : "ABCDEFGHIJKLMNOPQRSTUVWXYZabcdefghijklmnopqrstuvwxyz0123456789+/".toList.length = 64 := by
        decide
      omega
    rw [this]; decide

theorem b64Char_mem (n : Nat) : b64Char n ∈ encodeStd := by
  by_cases h : n < 64
  · interval_cases n <;> decide
  · have : b64Char n = 'A' := by
      unfold b64Char
      rw [List.getD_eq_default]
      simp only [encodeStd]
      have : "ABCDEFGHIJKLMNOPQRSTUVWXYZabcdefghijklmnopqrstuvwxyz0123456789+/".toList.length = 64 := by
        decide
      omega
    rw [this]; decide

theorem DecodeString_quad (c0 c1 c2 c3 : Char) (rest : Str) (v0 v1 v2 v3 : Nat)
    (bs : List Nat) (h0 : b64Val c0 = some v0) (h1 : b64Val c1 = some v1)
    (h2 : b64Val c2 = some v2) (h3 : b64Val c3 = some v3) (n2 : c2 ≠ '=') (n3 : c3 ≠ '=')
    (hr : DecodeString rest = some bs) :
    DecodeString (c0 :: c1 :: c2 :: c3 :: rest) =
      some ((v0 * 4 + v1 / 16) :: (v1 % 16 * 16 + v2 / 4) :: (v2 % 4 * 64 + v3) :: bs) := by
  rw [DecodeString]
  simp only [h0, h1, h2, h3, hr, if_neg n2, if_neg n3]

theorem DecodeString_pad2 (c0 c1 : Char) (v0 v1 : Nat)
    (h0 : b64Val c0 = some v0) (h1 : b64Val c1 = some v1) :
    DecodeString [c0, c1, '=', '='] = some [v0 * 4 + v1 / 16] := by
  rw [DecodeString]
  simp [h0, h1]

theorem DecodeString_pad1 (c0 c1 c2 : Char) (v0 v1 v2 : Nat)
    (h0 : b64Val c0 = some v0) (h1 : b64Val c1 = some v1) (h2 : b64Val c2 = some v2)
    (n2 : c2 ≠ '=') :
    DecodeString [c0, c1, c2, '='] = some [v0 * 4 + v1 / 16, v1 % 16 * 16 + v2 / 4] := by
  rw [DecodeString]
  simp [h0, h1, h2, n2]

theorem DecodeString_EncodeToString (bs : List Nat) (h : ∀ b ∈ bs, b < 256) :
    DecodeString (EncodeToString bs) = some bs := by
  induction bs using EncodeToString.induct with
  | case1 => simp [EncodeToString, DecodeString]
  | case2 a =>
    have ha : a < 256 := h a (by simp)
    rw [EncodeToString, DecodeString_pad2 _ _ _ _ (b64Val_b64Char _ (by omega))
      (b64Val_b64Char _ (by omega))]
    congr 2
    omega
  | case3 a b =>
    have ha : a < 256 := h a (by simp)
    have hb : b < 256 := h b (by simp)
    rw [EncodeToString, DecodeString_pad1 _ _ _ _ _ _ (b64Val_b64Char _ (by omega))
      (b64Val_b64Char _ (by omega)) (b64Val_b64Char _ (by omega)) (b64Char_ne_pad _)]
    have e1 : a / 4 * 4 + (a % 4 * 16 + b / 16) / 16 = a := by omega
    have e2 : (a % 4 * 16 + b / 16) % 16 * 16 + b % 16 * 4 / 4 = b := by omega
    rw [e1, e2]
  | case4 a b c rest ih =>
    have ha : a < 256 := h a (by simp)
    have hb : b < 256 := h b (by simp)
    have hc : c < 256 := h c (by simp)
    have hrest := ih (fun x hx => h x (by simp [hx]))
    rw [EncodeToString, DecodeString_quad _ _ _ _ _ _ _ _ _ _ (b64Val_b64Char _ (by omega))
      (b64Val_b64Char _ (by omega)) (b64Val_b64Char _ (by omega)) (b64Val_b64Char _ (by omega))
      (b64Char_ne_pad _) (b64Char_ne_pad _) hrest]
    have e1 : a / 4 * 4 + (a % 4 * 16 + b / 16) / 16 = a := by omega
    have e2 : (a % 4 * 16 + b / 16) % 16 * 16 + (b % 16 * 4 + c / 64) / 4 = b := by omega
    have e3 : (b % 16 * 4 + c / 64) % 4 * 64 + c % 64 = c := by omega
    rw [e1, e2, e3]

theorem Char_toNat_lt (c : Char) : c.toNat < 0x110000 := by
  have h := c.valid
  simp only [UInt32.isValidChar, Nat.isValidChar] at h
  simp only [Char.toNat]
  omega

theorem utf8EncodeChar_lt (c : Char) : ∀ b ∈ utf8EncodeChar c, b < 256 := by
  have h := Char_toNat_lt c
  unfold utf8EncodeChar
  simp only
  split_ifs <;> simp <;> omega

theorem toBytes_lt (s : Str) : ∀ b ∈ toBytes s, b < 256 := by
  intro b hb
  unfold toBytes at hb
  obtain ⟨c, -, hc⟩ := List.mem_flatMap.mp hb
  exact utf8EncodeChar_lt c b hc

theorem EncodeToString_alphabet (bs : List Nat) :
    ∀ c ∈ EncodeToString bs, c ∈ encodeStd ∨ c = '=' := by
  induction bs using EncodeToString.induct with
  | case1 => simp [EncodeToString]
  | case2 a => simp [EncodeToString, b64Char_mem]
  | case3 a b => simp [EncodeToString, b64Char_mem]
  | case4 a b c rest ih =>
    intro x hx
    rw [EncodeToString] at hx
    simp only [List.mem_cons] at hx
    rcases hx with rfl | rfl | rfl | rfl | hx
    · exact Or.inl (b64Char_mem _)
    · exact Or.inl (b64Char_mem _)
    · exact Or.inl (b64Char_mem _)
    · exact Or.inl (b64Char_mem _)
    · exact ih x hx

theorem encodedSubject_chars (subject : Str) :
    ∀ c ∈ encodedSubject subject, c ∈ encodeStd ∨ c = '=' ∨ c = '?' ∨ c = '-' := by
  intro c hc
  unfold encodedSubject at hc
  simp only [List.mem_append] at hc
  rcases hc with (hc | hc) | hc
  · revert c; decide
  · rcases EncodeToString_alphabet _ c hc with h | h
    · exact Or.inl h
    · exact Or.inr (Or.inl h)
  · revert c; decide

/-- The message handed to the data writer is the assembled message. -/
theorem SendEmail_written (cfg : Config) (env : Env) (subject receiver content : Str)
    (msg : Str) (e : Option Str)
    (h : Event.write msg e ∈ (SendEmail cfg env subject receiver content).trace) :
    buildMail (defaultFrom cfg) env subject receiver content = some msg := by
  rcases SendEmail_trace_cases cfg env subject receiver content with
    ⟨h0, -⟩ | ⟨mail, hmail, htr, -⟩
  · rw [h0] at h; exact absurd h (List.not_mem_nil _)
  · rw [htr] at h
    rw [hmail]
    rcases connect_shape (defaultFrom cfg) env (addrOf (defaultFrom cfg)) (Split receiver ';')
      mail with ⟨hno, -⟩ | ⟨head, hc, -, hhead⟩
    · have := hno _ h
      simp [isSessionCall] at this
    · rw [hc] at h
      simp only [List.mem_append, List.mem_singleton] at h
      rcases h with (h | h) | h
      · have := hhead _ h
        simp [isSessionCall] at this
      · rcases session_cases (defaultFrom cfg) env (Split receiver ';') mail with
          ⟨f, -, hs⟩ | ⟨e', hs⟩ | ⟨pre, a, post, e', -, -, hs⟩ | hs
        · rw [hs] at h; simp at h
        · rw [hs] at h; simp at h
        · rw [hs] at h; simp at h
        · rw [hs] at h
          simp only [List.mem_cons, List.mem_append, List.mem_map, reduceCtorEq, false_or,
            and_false, exists_false] at h
          rcases transfer_cases env mail with
            ⟨e', ht⟩ | ⟨e', ht⟩ | ⟨e', ht⟩ | ⟨e', ht⟩ | ht <;>
            · rw [ht] at h
              simp at h
              try rw [h.1]
      · cases h

set_option maxRecDepth 100000

theorem land_lor_c0 : ∀ y : Fin 256, (y.val &&& 0x1f ||| 0xc0) = 0xc0 + y.val % 32 := by decide
theorem land_lor_80 : ∀ y : Fin 256, (y.val &&& 0x3f ||| 0x80) = 0x80 + y.val % 64 := by decide
theorem land_lor_e0 : ∀ y : Fin 256, (y.val &&& 0x0f ||| 0xe0) = 0xe0 + y.val % 16 := by decide
theorem land_lor_f0 : ∀ y : Fin 256, (y.val &&& 0x07 ||| 0xf0) = 0xf0 + y.val % 8 := by decide

theorem UInt8_land_lor_toNat (a m o : UInt8) :
    (a &&& m ||| o).toNat = (a.toNat &&& m.toNat ||| o.toNat) := by
  show ((a.toBitVec &&& m.toBitVec) ||| o.toBitVec).toNat = _
  simp [BitVec.toNat_and, BitVec.toNat_or, UInt8.toNat]

theorem UInt32_shr_toNat (v : UInt32) (k : UInt32) (hk : k.toNat < 32) :
    (v >>> k).toNat = v.toNat / 2 ^ k.toNat := by
  show (v.toBitVec >>> (UInt32.mod k 32).toBitVec).toNat = _
  have : (UInt32.mod k 32).toBitVec.toNat = k.toNat := by
    show (k.toBitVec % (32 : UInt32).toBitVec).toNat = _
    rw [BitVec.toNat_umod]
    exact Nat.mod_eq_of_lt hk
  rw [BitVec.ushiftRight_eq', BitVec.toNat_ushiftRight, this, Nat.shiftRight_eq_div_pow]
  rfl

theorem UInt32_toUInt8_toNat (v : UInt32) : v.toUInt8.toNat = v.toNat % 256 := by
  show (BitVec.ofNat 8 v.toNat).toNat = _
  simp [BitVec.toNat_ofNat]

/-- The bytes that the encoder of the Lean core library gives for a code point. -/
theorem utf8EncodeChar_core (c : Char) :
    utf8EncodeChar c = (String.utf8EncodeChar c).map UInt8.toNat := by
  have hlt := Char_toNat_lt c
  have hv : c.val.toNat = c.toNat := rfl
  have le_iff : ∀ k : UInt32, (c.val ≤ k) ↔ c.toNat ≤ k.toNat := fun k => Iff.rfl
  have b1 := fun y h => land_lor_c0 ⟨y, h⟩
  have b2 := fun y h => land_lor_80 ⟨y, h⟩
  have b3 := fun y h => land_lor_e0 ⟨y, h⟩
  have b4 := fun y h => land_lor_f0 ⟨y, h⟩
  simp only at b1 b2 b3 b4
  have s6 : (c.val >>> 6).toNat = c.toNat / 64 := UInt32_shr_toNat c.val 6 (by decide)
  have s12 : (c.val >>> 12).toNat = c.toNat / 4096 := UInt32_shr_toNat c.val 12 (by decide)
  have s18 : (c.val >>> 18).toNat = c.toNat / 262144 := UInt32_shr_toNat c.val 18 (by decide)
  have m0 := Nat.mod_lt c.toNat (show 0 < 256 by decide)
  have m6 := Nat.mod_lt (c.toNat / 64) (show 0 < 256 by decide)
  have m12 := Nat.mod_lt (c.toNat / 4096) (show 0 < 256 by decide)
  have m18 := Nat.mod_lt (c.toNat / 262144) (show 0 < 256 by decide)
  unfold utf8EncodeChar String.utf8EncodeChar
  simp only [le_iff]
  have k1 : (0x7f : UInt32).toNat = 127 := rfl
  have k2 : (0x7ff : UInt32).toNat = 2047 := rfl
  have k3 : (0xffff : UInt32).toNat = 65535 := rfl
  have c1 : (0x1f : UInt8).toNat = 0x1f := rfl
  have c2 : (0xc0 : UInt8).toNat = 0xc0 := rfl
  have c3 : (0x3f : UInt8).toNat = 0x3f := rfl
  have c4 : (0x80 : UInt8).toNat = 0x80 := rfl
  have c5 : (0x0f : UInt8).toNat = 0x0f := rfl
  have c6 : (0xe0 : UInt8).toNat = 0xe0 := rfl
  have c7 : (0x07 : UInt8).toNat = 0x07 := rfl
  have c8 : (0xf0 : UInt8).toNat = 0xf0 := rfl
  rw [k1, k2, k3]
  by_cases h1 : c.toNat ≤ 127
  · rw [if_pos h1, if_pos (by omega)]
    simp only [List.map_cons, List.map_nil, UInt32_toUInt8_toNat, hv]
    congr 1; omega
  · rw [if_neg h1, if_neg (by omega)]
    by_cases h2 : c.toNat ≤ 2047
    · rw [if_pos h2, if_pos (by omega)]
      simp only [List.map_cons, List.map_nil, UInt8_land_lor_toNat, UInt32_toUInt8_toNat, hv, s6,
        c1, c2, c3, c4]
      rw [b1 _ m6, b2 _ m0]
      congr 1
      · omega
      · congr 1; omega
    · rw [if_neg h2, if_neg (by omega)]
      by_cases h3 : c.toNat ≤ 65535
      · rw [if_pos h3, if_pos (by omega)]
        simp only [List.map_cons, List.map_nil, UInt8_land_lor_toNat, UInt32_toUInt8_toNat, hv,
          s6, s12, c3, c4, c5, c6]
        rw [b3 _ m12, b2 _ m6, b2 _ m0]
        congr 1
        · omega
        · congr 1
          · omega
          · congr 1; omega
      · rw [if_neg h3, if_neg (by omega)]
        simp only [List.map_cons, List.map_nil, UInt8_land_lor_toNat, UInt32_toUInt8_toNat, hv,
          s6, s12, s18, c3, c4, c7, c8]
        rw [b4 _ m18, b2 _ m12, b2 _ m6, b2 _ m0]
        congr 1
        · omega
        · congr 1
          · omega
          · congr 1
            · omega
            · congr 1; omega

theorem b64Char_eq_sextetChar (n : Nat) (h : n < 64) : b64Char n = sextetChar n := by
  interval_cases n <;> decide

theorem sextets_three (a b c : Nat) (rest : List Nat) (ha : a < 256) (hb : b < 256)
    (hc : c < 256) :
    sextets (byteBits a ++ byteBits b ++ byteBits c ++ rest) =
      a / 4 :: (a % 4 * 16 + b / 16) :: (b % 16 * 4 + c / 64) :: c % 64 :: sextets rest := by
  simp only [byteBits, List.cons_append, List.nil_append, sextets, bitsValue, List.foldl_cons,
    List.foldl_nil]
  congr 1
  · omega
  · congr 1
    · omega
    · congr 1
      · omega
      · congr 1
        omega

theorem sextets_one (a : Nat) (ha : a < 256) :
    sextets (byteBits a) = [a / 4, a % 4 * 16] := by
  simp only [byteBits, sextets, bitsValue, List.foldl_cons, List.foldl_nil, List.length_cons,
    List.length_nil, List.replicate, List.cons_append, List.nil_append]
  congr 1
  · omega
  · congr 1
    omega

theorem sextets_two (a b : Nat) (ha : a < 256) (hb : b < 256) :
    sextets (byteBits a ++ byteBits b) = [a / 4, a % 4 * 16 + b / 16, b % 16 * 4] := by
  simp only [byteBits, sextets, bitsValue, List.foldl_cons, List.foldl_nil, List.length_cons,
    List.length_nil, List.replicate, List.cons_append, List.nil_append]
  congr 1
  · omega
  · congr 1
    · omega
    · congr 1
      omega

theorem base64RFC4648_three (a b c : Nat) (rest : List Nat) (ha : a < 256) (hb : b < 256)
    (hc : c < 256) :
    base64RFC4648 (a :: b :: c :: rest) =
      sextetChar (a / 4) :: sextetChar (a % 4 * 16 + b / 16) ::
        sextetChar (b % 16 * 4 + c / 64) :: sextetChar (c % 64) :: base64RFC4648 rest := by
  have hs : sextets ((a :: b :: c :: rest).flatMap byteBits) =
      a / 4 :: (a % 4 * 16 + b / 16) :: (b % 16 * 4 + c / 64) :: c % 64 ::
        sextets (rest.flatMap byteBits) := by
    rw [← sextets_three a b c _ ha hb hc]
    simp only [List.flatMap_cons, List.append_assoc]
  unfold base64RFC4648
  rw [hs]
  have hpad : (4 - (sextets (rest.flatMap byteBits)).length.succ.succ.succ.succ % 4) % 4 =
      (4 - (sextets (rest.flatMap byteBits)).length % 4) % 4 := by
    omega
  simp only [List.map_cons, List.length_cons, List.cons_append]
  rw [hpad]

theorem EncodeToString_eq_RFC (bs : List Nat) (h : ∀ b ∈ bs, b < 256) :
    EncodeToString bs = base64RFC4648 bs := by
  induction bs using EncodeToString.induct with
  | case1 => decide
  | case2 a =>
    have ha : a < 256 := h a (by simp)
    unfold base64RFC4648
    have hs : sextets ([a].flatMap byteBits) = [a / 4, a % 4 * 16] := by
      rw [← sextets_one a ha]; simp
    rw [hs, EncodeToString, b64Char_eq_sextetChar _ (by omega),
      b64Char_eq_sextetChar _ (by omega)]
    rfl
  | case3 a b =>
    have ha : a < 256 := h a (by simp)
    have hb : b < 256 := h b (by simp)
    unfold base64RFC4648
    have hs : sextets ([a, b].flatMap byteBits) = [a / 4, a % 4 * 16 + b / 16, b % 16 * 4] := by
      rw [← sextets_two a b ha hb]; simp
    rw [hs, EncodeToString, b64Char_eq_sextetChar _ (by omega),
      b64Char_eq_sextetChar _ (by omega), b64Char_eq_sextetChar _ (by omega)]
    rfl
  | case4 a b c rest ih =>
    have ha : a < 256 := h a (by simp)
    have hb : b < 256 := h b (by simp)
    have hc : c < 256 := h c (by simp)
    rw [EncodeToString, base64RFC4648_three a b c rest ha hb hc,
      ih (fun x hx => h x (by simp [hx])), b64Char_eq_sextetChar _ (by omega),
      b64Char_eq_sextetChar _ (by omega), b64Char_eq_sextetChar _ (by omega),
      b64Char_eq_sextetChar _ (by omega)]

theorem toBytes_core (s : Str) :
    toBytes s = (String.mk s).toUTF8.data.toList.map UInt8.toNat := by
  show toBytes s = (s.flatMap String.utf8EncodeChar).map UInt8.toNat
  unfold toBytes
  induction s with
  | nil => rfl
  | cons c cs ih => simp only [List.flatMap_cons, List.map_append, ih, utf8EncodeChar_core]

/-- The assembled message, line by line. -/
theorem buildMail_eq (cfg : Config) (env : Env) (subject receiver content mail : Str)
    (h : buildMail cfg env subject receiver content = some mail) :
    ∃ messageID, generateMessageID cfg env = some messageID ∧
      mail = "To: ".toList ++ receiver ++ "\r\n".toList ++
        "From: ".toList ++ cfg.SystemName ++ " <".toList ++ cfg.SMTPFrom ++ ">\r\n".toList ++
        "Subject: ".toList ++ encodedSubject subject ++ "\r\n".toList ++
        "Date: ".toList ++ env.nowRFC1123Z ++ "\r\n".toList ++
        "Message-ID: ".toList ++ messageID ++ "\r\n".toList ++
        "Content-Type: text/html; charset=UTF-8\r\n\r\n".toList ++ content ++ "\r\n".toList := by
  unfold buildMail at h
  cases hg : generateMessageID cfg env with
  | none => rw [hg] at h; cases h
  | some messageID =>
    rw [hg] at h
    simp only [Option.some.injEq] at h
    exact ⟨messageID, rfl, h.symm⟩

/-- A call that returns `nil` has written the assembled message. -/
theorem SendEmail_ok_written (cfg : Config) (env : Env) (subject receiver content : Str)
    (h : (SendEmail cfg env subject receiver content).outcome = Outcome.ok) :
    ∃ msg, Event.write msg none ∈ (SendEmail cfg env subject receiver content).trace := by
  rcases SendEmail_trace_cases cfg env subject receiver content with
    ⟨-, hne⟩ | ⟨mail, -, htr, hout⟩
  · exact absurd h hne
  · rw [hout] at h
    rw [htr]
    rcases connect_shape (defaultFrom cfg) env (addrOf (defaultFrom cfg)) (Split receiver ';')
      mail with ⟨-, hne⟩ | ⟨head, hc, ho, -⟩
    · exact absurd h hne
    · rw [ho] at h
      rw [hc]
      refine ⟨mail, ?_⟩
      rcases session_cases (defaultFrom cfg) env (Split receiver ';') mail with
        ⟨f, -, hs⟩ | ⟨e', hs⟩ | ⟨pre, a, post, e', -, -, hs⟩ | hs
      · rw [hs] at h; cases h
      · rw [hs] at h; cases h
      · rw [hs] at h; cases h
      · rw [hs] at h ⊢
        rcases transfer_cases env mail with
          ⟨e', ht⟩ | ⟨e', ht⟩ | ⟨e', ht⟩ | ⟨e', ht⟩ | ht
        · rw [ht] at h; cases h
        · rw [ht] at h; cases h
        · rw [ht] at h; cases h
        · rw [ht] at h; cases h
        · rw [ht]; simp

theorem encodedSubject_classes (subject : Str) :
    ∀ c ∈ encodedSubject subject,
      (('A' ≤ c ∧ c ≤ 'Z') ∨ ('a' ≤ c ∧ c ≤ 'z') ∨ ('0' ≤ c ∧ c ≤ '9') ∨ c = '+' ∨ c = '/' ∨
        c = '=' ∨ c = '?' ∨ c = '-') ∧ c.toNat < 128 ∧ c ≠ '\r' ∧ c ≠ '\n' := by
  have hstd : ∀ c ∈ encodeStd,
      (('A' ≤ c ∧ c ≤ 'Z') ∨ ('a' ≤ c ∧ c ≤ 'z') ∨ ('0' ≤ c ∧ c ≤ '9') ∨ c = '+' ∨ c = '/' ∨
        c = '=' ∨ c = '?' ∨ c = '-') ∧ c.toNat < 128 ∧ c ≠ '\r' ∧ c ≠ '\n' := by
    decide
  intro c hc
  rcases encodedSubject_chars subject c hc with h | rfl | rfl | rfl
  · exact hstd c h
  · decide
  · decide
  · decide

/-! ## C1: Missing configuration -/

/-- C1: with `SMTPServer` empty or `SMTPAccount` empty, for every subject, receiver and
content, `SendEmail` returns the error `SMTP server or account not configured` and
makes no call to the network or to the SMTP client: its trace is empty. -/
theorem SendEmail_unconfigured (cfg : Config) (env : Env) (subject receiver content : Str)
    (h : cfg.SMTPServer = [] ∨ cfg.SMTPAccount = []) :
    (SendEmail cfg env subject receiver content).outcome =
        Outcome.error "SMTP server or account not configured".toList ∧
      (SendEmail cfg env subject receiver content).trace = [] := by
  unfold SendEmail
  simp only [defaultFrom_server, defaultFrom_account, if_pos h, and_self]

theorem SendEmail_unconfigured_witness :
    (SendEmail { cfg587 with SMTPAccount := [] } envOk "s".toList "a@x.com".toList "c".toList).outcome =
        Outcome.error "SMTP server or account not configured".toList ∧
      (SendEmail { cfg587 with SMTPAccount := [] } envOk "s".toList "a@x.com".toList "c".toList).trace = [] :=
  SendEmail_unconfigured { cfg587 with SMTPAccount := [] } envOk "s".toList "a@x.com".toList
    "c".toList (Or.inr rfl)

/-! ## C2: A rejected recipient -/

/-- C2: when the server rejects the `RCPT` for an address, `SendEmail` returns the error
`failed to add recipient <address>: <cause>`, which names the trimmed address; the
rejected `RCPT` is followed by the deferred close only, so no later piece of the receiver
gets a `RCPT`, and the run contains no `DATA` and no write of the message. -/
theorem SendEmail_rcpt_rejected (cfg : Config) (env : Env) (subject receiver content : Str)
    (addr e : Str)
    (h : Event.rcpt addr (some e) ∈ (SendEmail cfg env subject receiver content).trace) :
    (SendEmail cfg env subject receiver content).outcome =
        Outcome.error ("failed to add recipient ".toList ++ addr ++ ": ".toList ++ e) ∧
      addr <:+: ("failed to add recipient ".toList ++ addr ++ ": ".toList ++ e) ∧
      (∃ before, (SendEmail cfg env subject receiver content).trace =
        before ++ [Event.rcpt addr (some e), Event.close]) ∧
      (∃ pre a post, Split receiver ';' = pre ++ a :: post ∧ addr = TrimSpace a ∧
        rcptAddrs (SendEmail cfg env subject receiver content).trace =
          pre.map TrimSpace ++ [addr]) ∧
      ∀ ev ∈ (SendEmail cfg env subject receiver content).trace, isDataOrWrite ev = false := by
  rcases SendEmail_trace_cases cfg env subject receiver content with
    ⟨h0, -⟩ | ⟨mail, -, htr, hout⟩
  · rw [h0] at h; exact absurd h (List.not_mem_nil _)
  · rw [htr] at h
    rw [htr, hout]
    rcases connect_shape (defaultFrom cfg) env (addrOf (defaultFrom cfg)) (Split receiver ';')
      mail with ⟨hno, -⟩ | ⟨head, hc, ho, hhead⟩
    · have := hno _ h
      simp [isSessionCall] at this
    · rw [hc] at h
      have hmem : Event.rcpt addr (some e) ∈
          (session (defaultFrom cfg) env (Split receiver ';') mail).1 := by
        simp only [List.mem_append, List.mem_singleton] at h
        rcases h with (h | h) | h
        · have := hhead _ h
          simp [isSessionCall] at this
        · exact h
        · cases h
      obtain ⟨pre, a, post, htos, haddr, hs⟩ := session_rejected _ _ _ _ _ _ hmem
      rw [hc, ho, hs]
      refine ⟨rfl, ?_, ?_, ⟨pre, a, post, htos, haddr, ?_⟩, ?_⟩
      · exact ⟨"failed to add recipient ".toList, ": ".toList ++ e, by simp⟩
      · exact ⟨head ++ (Event.auth (chooseAuth (defaultFrom cfg) env) none ::
          Event.mail (defaultFrom cfg).SMTPFrom none ::
          pre.map (fun a => Event.rcpt (TrimSpace a) none)), by simp⟩
      · simp only [rcptAddrs_append, rcptAddrs_of_no_session_call head hhead]
        simp [rcptAddrs, rcptAddrs_append, rcptAddrs_map_accepted]
      · intro ev hev
        simp only [List.mem_cons, List.mem_append, List.mem_map, List.mem_singleton,
          List.not_mem_nil, or_false] at hev
        rcases hev with (hev | rfl | rfl | ⟨x, -, rfl⟩ | rfl) | rfl
        · have := hhead ev hev
          cases ev <;> simp_all [isSessionCall, isDataOrWrite]
        all_goals simp [isDataOrWrite]

theorem SendEmail_rcpt_rejected_witness :
    (SendEmail cfg587 envRejectSecond "s".toList "a@x.com ; b@y.com;c@z.com".toList
        "c".toList).outcome =
        Outcome.error ("failed to add recipient ".toList ++ "b@y.com".toList ++ ": ".toList ++
          "550 no such user".toList) ∧
      "b@y.com".toList <:+: ("failed to add recipient ".toList ++ "b@y.com".toList ++
        ": ".toList ++ "550 no such user".toList) ∧
      (∃ before, (SendEmail cfg587 envRejectSecond "s".toList "a@x.com ; b@y.com;c@z.com".toList
        "c".toList).trace =
        before ++ [Event.rcpt "b@y.com".toList (some "550 no such user".toList), Event.close]) ∧
      (∃ pre a post, Split "a@x.com ; b@y.com;c@z.com".toList ';' = pre ++ a :: post ∧
        "b@y.com".toList = TrimSpace a ∧
        rcptAddrs (SendEmail cfg587 envRejectSecond "s".toList "a@x.com ; b@y.com;c@z.com".toList
          "c".toList).trace = pre.map TrimSpace ++ ["b@y.com".toList]) ∧
      ∀ ev ∈ (SendEmail cfg587 envRejectSecond "s".toList "a@x.com ; b@y.com;c@z.com".toList
        "c".toList).trace, isDataOrWrite ev = false :=
  SendEmail_rcpt_rejected cfg587 envRejectSecond "s".toList "a@x.com ; b@y.com;c@z.com".toList
    "c".toList "b@y.com".toList "550 no such user".toList (by decide)

/-! ## C3: Closing the connection -/

/-- C3, counterexample: in a run in which every call succeeds the connection is closed
twice, by the successful `Quit` and by the deferred `client.Close()`; so it is in a run
whose authentication fails, where `net/smtp` closes the connection before the
deferred call.  And in a run whose client construction fails `SendEmail` makes no
close call of its own. -/
theorem SendEmail_closes_twice :
    (dialSucceeded (SendEmail cfg587 envOk "s".toList "a@x.com".toList "c".toList).trace = true ∧
        (SendEmail cfg587 envOk "s".toList "a@x.com".toList "c".toList).outcome = Outcome.ok ∧
        connCloses (SendEmail cfg587 envOk "s".toList "a@x.com".toList "c".toList).trace = 2) ∧
      (dialSucceeded
          (SendEmail cfg587 envAuthFail "s".toList "a@x.com".toList "c".toList).trace = true ∧
        (SendEmail cfg587 envAuthFail "s".toList "a@x.com".toList "c".toList).outcome =
          Outcome.error "authentication failed: 535 authentication failed".toList ∧
        connCloses
          (SendEmail cfg587 envAuthFail "s".toList "a@x.com".toList "c".toList).trace = 2) ∧
      (dialSucceeded
          (SendEmail cfg587 envGreetingFail "s".toList "a@x.com".toList "c".toList).trace = true ∧
        (SendEmail cfg587 envGreetingFail "s".toList "a@x.com".toList "c".toList).outcome =
          Outcome.error "failed to create SMTP client: 421 service not available".toList ∧
        closeCalls
          (SendEmail cfg587 envGreetingFail "s".toList "a@x.com".toList "c".toList).trace = 0) := by
  decide

/-- C3, amended: in every run in which the dial succeeded the connection is closed
before `SendEmail` returns, once or twice.  When the client was constructed,
`SendEmail` calls `client.Close()` exactly once, as its last call, and `net/smtp`
closes the connection at most once more (a successful `QUIT`, or a failed `Auth` or
`Quit` that closed it); when the client construction failed, `SendEmail` makes no
close call and the one close is that of `smtp.NewClient`. -/
theorem SendEmail_connection_closed (cfg : Config) (env : Env)
    (subject receiver content : Str)
    (h : dialSucceeded (SendEmail cfg env subject receiver content).trace = true) :
    connCloses (SendEmail cfg env subject receiver content).trace =
        closeCalls (SendEmail cfg env subject receiver content).trace +
          libraryCloses (SendEmail cfg env subject receiver content).trace ∧
      1 ≤ connCloses (SendEmail cfg env subject receiver content).trace ∧
      connCloses (SendEmail cfg env subject receiver content).trace ≤ 2 ∧
      ((∃ ev ∈ (SendEmail cfg env subject receiver content).trace, isClientOk ev = true) →
        closeCalls (SendEmail cfg env subject receiver content).trace = 1 ∧
        (SendEmail cfg env subject receiver content).trace.getLast? = some Event.close ∧
        libraryCloses (SendEmail cfg env subject receiver content).trace ≤ 1) ∧
      ((∀ ev ∈ (SendEmail cfg env subject receiver content).trace, isClientOk ev = false) →
        closeCalls (SendEmail cfg env subject receiver content).trace = 0 ∧
        libraryCloses (SendEmail cfg env subject receiver content).trace = 1 ∧
        ∃ host e, (SendEmail cfg env subject receiver content).trace.getLast? =
          some (Event.newClient host (some e))) := by
  rcases SendEmail_trace_cases cfg env subject receiver content with
    ⟨h0, -⟩ | ⟨mail, -, htr, -⟩
  · rw [h0] at h; simp [dialSucceeded] at h
  · rw [htr] at h ⊢
    have hsc := session_calls (defaultFrom cfg) env (Split receiver ';') mail
    have hsl := libraryCloses_session (defaultFrom cfg) env (Split receiver ';') mail
    by_cases hp : (defaultFrom cfg).SMTPPort = 465 ∨ (defaultFrom cfg).SMTPSSLEnabled = true
    · rcases connect_tls (defaultFrom cfg) env (addrOf (defaultFrom cfg)) (Split receiver ';')
        mail hp with ⟨e, hc⟩ | ⟨e, hc⟩ | hc
      · rw [hc] at h; simp [dialSucceeded, isDialOk] at h
      · rw [hc]
        simp [connCloses, closeCalls, libraryCloses, closesOf, libCloses, isClientOk]
      · have hc2 : (connect (defaultFrom cfg) env (addrOf (defaultFrom cfg))
            (Split receiver ';') mail).1 =
            [Event.tlsDial (addrOf (defaultFrom cfg)) (defaultFrom cfg).SMTPServer none,
              Event.newClient (defaultFrom cfg).SMTPServer none] ++
            (session (defaultFrom cfg) env (Split receiver ';') mail).1 ++ [Event.close] := by
          rw [hc]; simp
        rw [hc2]
        exact closes_of_deferred_run _ _ (by simp [closesOf, libCloses]) (by simp [isClientOk])
          hsc hsl
    · rcases connect_plain (defaultFrom cfg) env (addrOf (defaultFrom cfg)) (Split receiver ';')
        mail hp with ⟨e, -, hc⟩ | ⟨e, -, -, hc⟩ | ⟨e, -, hc⟩ | ⟨-, hc⟩ | ⟨-, hc⟩
      · rw [hc] at h; simp [dialSucceeded, isDialOk] at h
      · rw [hc]
        simp [connCloses, closeCalls, libraryCloses, closesOf, libCloses, isClientOk]
      · rw [hc]
        simp [connCloses, closeCalls, libraryCloses, closesOf, libCloses, isClientOk]
      · have hc2 : (connect (defaultFrom cfg) env (addrOf (defaultFrom cfg))
            (Split receiver ';') mail).1 =
            [Event.netDial (addrOf (defaultFrom cfg)) none,
              Event.newClient (defaultFrom cfg).SMTPServer none,
              Event.extension "STARTTLS".toList true,
              Event.startTLS (defaultFrom cfg).SMTPServer none] ++
            (session (defaultFrom cfg) env (Split receiver ';') mail).1 ++ [Event.close] := by
          rw [hc]; simp
        rw [hc2]
        exact closes_of_deferred_run _ _ (by simp [closesOf, libCloses]) (by simp [isClientOk])
          hsc hsl
      · have hc2 : (connect (defaultFrom cfg) env (addrOf (defaultFrom cfg))
            (Split receiver ';') mail).1 =
            [Event.netDial (addrOf (defaultFrom cfg)) none,
              Event.newClient (defaultFrom cfg).SMTPServer none,
              Event.extension "STARTTLS".toList false] ++
            (session (defaultFrom cfg) env (Split receiver ';') mail).1 ++ [Event.close] := by
          rw [hc]; simp
        rw [hc2]
        exact closes_of_deferred_run _ _ (by simp [closesOf, libCloses]) (by simp [isClientOk])
          hsc hsl

theorem SendEmail_connection_closed_witness :
    (closeCalls (SendEmail cfg587 envGreetingFail "s".toList "a@x.com".toList "c".toList).trace
          = 0 ∧
        libraryCloses
          (SendEmail cfg587 envGreetingFail "s".toList "a@x.com".toList "c".toList).trace = 1 ∧
        ∃ host e,
          (SendEmail cfg587 envGreetingFail "s".toList "a@x.com".toList "c".toList).trace.getLast?
            = some (Event.newClient host (some e))) ∧
      (closeCalls (SendEmail cfg587 envRejectSecond "s".toList "a@x.com;b@y.com".toList
          "c".toList).trace = 1 ∧
        (SendEmail cfg587 envRejectSecond "s".toList "a@x.com;b@y.com".toList
          "c".toList).trace.getLast? = some Event.close ∧
        libraryCloses (SendEmail cfg587 envRejectSecond "s".toList "a@x.com;b@y.com".toList
          "c".toList).trace ≤ 1) :=
  ⟨(SendEmail_connection_closed cfg587 envGreetingFail "s".toList "a@x.com".toList "c".toList
      (by decide)).2.2.2.2 (by decide),
    (SendEmail_connection_closed cfg587 envRejectSecond "s".toList "a@x.com;b@y.com".toList
      "c".toList (by decide)).2.2.2.1 (by decide)⟩

/-! ## C4: The recipient list -/

/-- C4: the addresses passed to `RCPT TO` are an initial part of the pieces of the
receiver split on `;`, each trimmed, in order, and are all of them when `SendEmail`
returns `nil`; that list has one entry more than the receiver has `;`, no entry
contains `;` or begins or ends with white space, and `a@x.com ; b@y.com` gives
`a@x.com` and `b@y.com`. -/
theorem SendEmail_recipients (cfg : Config) (env : Env) (subject receiver content : Str) :
    rcptAddrs (SendEmail cfg env subject receiver content).trace <+:
        (Split receiver ';').map TrimSpace ∧
      ((SendEmail cfg env subject receiver content).outcome = Outcome.ok →
        rcptAddrs (SendEmail cfg env subject receiver content).trace =
          (Split receiver ';').map TrimSpace) ∧
      ((Split receiver ';').map TrimSpace).length = receiver.count ';' + 1 ∧
      (∀ a ∈ (Split receiver ';').map TrimSpace, ';' ∉ a ∧
        (∀ c, a.head? = some c → isSpace c = false) ∧
        (∀ c, a.getLast? = some c → isSpace c = false)) ∧
      (Split "a@x.com ; b@y.com".toList ';').map TrimSpace =
        ["a@x.com".toList, "b@y.com".toList] := by
  refine ⟨?_, ?_, ?_, ?_, by decide⟩
  · rcases SendEmail_trace_cases cfg env subject receiver content with
      ⟨h0, -⟩ | ⟨mail, -, htr, -⟩
    · rw [h0]; exact List.nil_prefix
    · rw [htr]
      rcases connect_shape (defaultFrom cfg) env (addrOf (defaultFrom cfg))
        (Split receiver ';') mail with ⟨hno, -⟩ | ⟨head, hc, -, hhead⟩
      · rw [rcptAddrs_of_no_session_call _ hno]; exact List.nil_prefix
      · rw [hc, rcptAddrs_append, rcptAddrs_append, rcptAddrs_of_no_session_call head hhead]
        simpa [rcptAddrs] using (rcptAddrs_session (defaultFrom cfg) env (Split receiver ';')
          mail).1
  · intro hok
    rcases SendEmail_trace_cases cfg env subject receiver content with
      ⟨-, hne⟩ | ⟨mail, -, htr, hout⟩
    · exact absurd hok hne
    · rw [htr]
      rw [hout] at hok
      rcases connect_shape (defaultFrom cfg) env (addrOf (defaultFrom cfg))
        (Split receiver ';') mail with ⟨-, hne⟩ | ⟨head, hc, ho, hhead⟩
      · exact absurd hok hne
      · rw [ho] at hok
        rw [hc, rcptAddrs_append, rcptAddrs_append, rcptAddrs_of_no_session_call head hhead]
        simpa [rcptAddrs] using (rcptAddrs_session (defaultFrom cfg) env (Split receiver ';')
          mail).2 hok
  · rw [List.length_map, Split_length]
  · intro a ha
    obtain ⟨p, hp, rfl⟩ := List.mem_map.mp ha
    refine ⟨?_, TrimSpace_head p, TrimSpace_last p⟩
    intro hmem
    exact Split_not_mem receiver ';' p hp ((TrimSpace_sublist p).subset hmem)

theorem SendEmail_recipients_witness :
    rcptAddrs (SendEmail cfg587 envOk "s".toList " a@x.com ;b@y.com\t".toList "c".toList).trace =
      (Split " a@x.com ;b@y.com\t".toList ';').map TrimSpace :=
  (SendEmail_recipients cfg587 envOk "s".toList " a@x.com ;b@y.com\t".toList "c".toList).2.1
    (by decide)

/-! ## C5: The domain of the Message-ID -/

/-- C5, counterexample: for the account `a@b@c` the Message-ID ends with `@b>`: it ends
neither with `@b@c>` (all that follows the first `@`) nor with `@c>`. -/
theorem generateMessageID_two_at :
    generateMessageID cfgTwoAt envOk = some "<1136239445000000000.abcdefghijkl@b>".toList ∧
      ¬ ("@b@c>".toList <:+ "<1136239445000000000.abcdefghijkl@b>".toList) ∧
      ¬ ("@c>".toList <:+ "<1136239445000000000.abcdefghijkl@b>".toList) := by
  decide

/-- C5, amended: for an account with exactly one `@`, say `local@domain`, every
timestamp and every random suffix, the Message-ID is `<timestamp.suffix@domain>`: it
ends with `@`, the domain and the closing `>`. -/
theorem generateMessageID_domain (cfg : Config) (env : Env) (localPart domain : Str)
    (h : cfg.SMTPAccount = localPart ++ '@' :: domain) (hl : '@' ∉ localPart)
    (hd : '@' ∉ domain) :
    ∃ m, generateMessageID cfg env = some m ∧
      m = "<".toList ++ (toString env.nowUnixNano).toList ++ ".".toList ++
        env.randomString ++ "@".toList ++ domain ++ ">".toList ∧
      ('@' :: domain ++ ['>']) <:+ m := by
  have hsplit : Split cfg.SMTPAccount '@' = [localPart, domain] := by
    rw [h, Split_append_sep _ _ _ hl, Split_of_not_mem _ _ hd]
  refine ⟨_, ?_, rfl, ?_⟩
  · unfold generateMessageID
    rw [hsplit]
    rfl
  · exact ⟨"<".toList ++ (toString env.nowUnixNano).toList ++ ".".toList ++
      env.randomString, by simp⟩

theorem generateMessageID_domain_witness :
    ∃ m, generateMessageID cfg587 envOk = some m ∧
      m = "<".toList ++ (toString envOk.nowUnixNano).toList ++ ".".toList ++
        envOk.randomString ++ "@".toList ++ "x.com".toList ++ ">".toList ∧
      ('@' :: "x.com".toList ++ ['>']) <:+ m :=
  generateMessageID_domain cfg587 envOk "noreply".toList "x.com".toList
    (by decide) (by decide) (by decide)

/-! ## C6: Implicit TLS -/

/-- C6, counterexample: port 465, server and account non-empty, but the account has no
`@`: the run panics while the message is assembled and no TLS dial is made. -/
theorem SendEmail_implicit_tls_no_at :
    cfg465NoAt.SMTPPort = 465 ∧ cfg465NoAt.SMTPServer ≠ [] ∧ cfg465NoAt.SMTPAccount ≠ [] ∧
      (SendEmail cfg465NoAt envOk "s".toList "a@x.com".toList "c".toList).outcome =
        Outcome.indexOutOfRange ∧
      ∀ ev ∈ (SendEmail cfg465NoAt envOk "s".toList "a@x.com".toList "c".toList).trace,
        isTLSDial ev = false := by
  decide

/-- C6, amended: with port 465 or the implicit-TLS flag, a non-empty server and an
account that contains `@`, the first call of `SendEmail` is a TLS dial to `host:port`,
and the run makes no plain dial and no `STARTTLS`, whatever the server advertises. -/
theorem SendEmail_implicit_tls (cfg : Config) (env : Env) (subject receiver content : Str)
    (hp : cfg.SMTPPort = 465 ∨ cfg.SMTPSSLEnabled = true) (hs : cfg.SMTPServer ≠ [])
    (ha : '@' ∈ cfg.SMTPAccount) :
    (∃ rest, (SendEmail cfg env subject receiver content).trace =
        Event.tlsDial (cfg.SMTPServer ++ ":".toList ++ (toString cfg.SMTPPort).toList)
          cfg.SMTPServer (env.tlsDial (addrOf cfg)) :: rest) ∧
      ∀ ev ∈ (SendEmail cfg env subject receiver content).trace,
        isStartTLS ev = false ∧ isNetDial ev = false := by
  obtain ⟨mail, -, htr, -⟩ := SendEmail_connect cfg env subject receiver content hs ha
  have hp2 : (defaultFrom cfg).SMTPPort = 465 ∨ (defaultFrom cfg).SMTPSSLEnabled = true := by
    rw [defaultFrom_port, defaultFrom_ssl]; exact hp
  have hsess := session_calls (defaultFrom cfg) env (Split receiver ';') mail
  rw [htr]
  unfold connect
  rw [if_pos hp2, defaultFrom_server]
  cases hd : env.tlsDial (addrOf cfg) with
  | some e => simp [addrOf, isStartTLS, isNetDial]
  | none =>
    cases env.newClient with
    | some e => simp [addrOf, isStartTLS, isNetDial]
    | none =>
      refine ⟨⟨_, rfl⟩, ?_⟩
      intro ev hev
      simp only [List.mem_cons, List.mem_append, List.mem_singleton, List.not_mem_nil,
        or_false] at hev
      rcases hev with rfl | rfl | hev | rfl
      · simp [isStartTLS, isNetDial]
      · simp [isStartTLS, isNetDial]
      · have := hsess ev hev
        cases ev <;> simp_all [isSessionCall, isStartTLS, isNetDial]
      · simp [isStartTLS, isNetDial]

theorem SendEmail_implicit_tls_witness :
    (∃ rest, (SendEmail cfg587SSL envOk "s".toList "a@x.com".toList "c".toList).trace =
        Event.tlsDial (cfg587SSL.SMTPServer ++ ":".toList ++ (toString cfg587SSL.SMTPPort).toList)
          cfg587SSL.SMTPServer (envOk.tlsDial (addrOf cfg587SSL)) :: rest) ∧
      ∀ ev ∈ (SendEmail cfg587SSL envOk "s".toList "a@x.com".toList "c".toList).trace,
        isStartTLS ev = false ∧ isNetDial ev = false :=
  SendEmail_implicit_tls cfg587SSL envOk "s".toList "a@x.com".toList "c".toList
    (Or.inr rfl) (by decide) (by decide)

/-! ## C7: No STARTTLS on offer -/

/-- C7, counterexample: port 587 and a server without `STARTTLS`, but the implicit-TLS
flag is set: the run makes a TLS dial and no plain dial. -/
theorem SendEmail_plain_flag_set :
    cfg587SSL.SMTPPort ≠ 465 ∧ envOk.extensionSTARTTLS = false ∧
      (∃ ev ∈ (SendEmail cfg587SSL envOk "s".toList "a@x.com".toList "c".toList).trace,
        isTLSDial ev = true) ∧
      ∀ ev ∈ (SendEmail cfg587SSL envOk "s".toList "a@x.com".toList "c".toList).trace,
        isNetDial ev = false := by
  decide

/-- C7, amended: with a port other than 465, the implicit-TLS flag unset, a non-empty
server and an account containing `@`, and a server that does not advertise `STARTTLS`:
the first call is a plain dial to `host:port`, the run makes no TLS dial and no
`STARTTLS`, and when the dial and the client construction succeed the next call after
the extension query is `client.Auth` and the outcome is that of the steps from
authentication on (no error is returned for the missing extension). -/
theorem SendEmail_plain_unencrypted (cfg : Config) (env : Env)
    (subject receiver content : Str)
    (hp : cfg.SMTPPort ≠ 465) (hf : cfg.SMTPSSLEnabled = false) (hs : cfg.SMTPServer ≠ [])
    (ha : '@' ∈ cfg.SMTPAccount) (hx : env.extensionSTARTTLS = false) :
    (∃ rest, (SendEmail cfg env subject receiver content).trace =
        Event.netDial (cfg.SMTPServer ++ ":".toList ++ (toString cfg.SMTPPort).toList)
          (env.netDial (addrOf cfg)) :: rest) ∧
      (∀ ev ∈ (SendEmail cfg env subject receiver content).trace,
        isTLSDial ev = false ∧ isStartTLS ev = false) ∧
      (env.netDial (addrOf cfg) = none → env.newClient = none →
        ∃ mail rest, buildMail (defaultFrom cfg) env subject receiver content = some mail ∧
          (SendEmail cfg env subject receiver content).trace =
            Event.netDial (addrOf cfg) none :: Event.newClient cfg.SMTPServer none ::
              Event.extension "STARTTLS".toList false ::
              Event.auth (chooseAuth (defaultFrom cfg) env)
                (env.auth (chooseAuth (defaultFrom cfg) env)) :: rest ∧
          (SendEmail cfg env subject receiver content).outcome =
            (session (defaultFrom cfg) env (Split receiver ';') mail).2) := by
  obtain ⟨mail, hmail, htr, hout⟩ := SendEmail_connect cfg env subject receiver content hs ha
  have hp2 : ¬ ((defaultFrom cfg).SMTPPort = 465 ∨ (defaultFrom cfg).SMTPSSLEnabled = true) := by
    rw [defaultFrom_port, defaultFrom_ssl, hf]; simp [hp]
  have hsess := session_calls (defaultFrom cfg) env (Split receiver ';') mail
  obtain ⟨srest, hhead⟩ := session_head (defaultFrom cfg) env (Split receiver ';') mail
  rw [htr, hout]
  rcases connect_plain (defaultFrom cfg) env (addrOf cfg) (Split receiver ';') mail hp2 with
    ⟨e, hd, h⟩ | ⟨e, hd, hn, h⟩ | ⟨e, hx2, h⟩ | ⟨hx2, h⟩ | ⟨-, h⟩
  · rw [h, hd]
    simp [addrOf, isTLSDial, isStartTLS]
  · rw [h, hd, hn]
    simp [addrOf, isTLSDial, isStartTLS]
  · rw [hx] at hx2; exact absurd hx2 (by simp)
  · rw [hx] at hx2; exact absurd hx2 (by simp)
  · rw [h, defaultFrom_server]
    refine ⟨?_, ?_, ?_⟩
    · cases hd : env.netDial (addrOf cfg) with
      | none => exact ⟨_, rfl⟩
      | some e =>
        exfalso
        have := congrArg Prod.fst h
        unfold connect at this
        rw [if_neg hp2, hd] at this
        simp at this
    · intro ev hev
      simp only [List.mem_cons, List.mem_append, List.mem_singleton, List.not_mem_nil,
        or_false] at hev
      rcases hev with rfl | rfl | rfl | hev | rfl
      · simp [isTLSDial, isStartTLS]
      · simp [isTLSDial, isStartTLS]
      · simp [isTLSDial, isStartTLS]
      · have := hsess ev hev
        cases ev <;> simp_all [isSessionCall, isTLSDial, isStartTLS]
      · simp [isTLSDial, isStartTLS]
    · intro _ _
      refine ⟨mail, srest ++ [Event.close], hmail, ?_, rfl⟩
      simp only
      rw [hhead]
      rfl

theorem SendEmail_plain_unencrypted_witness :
    ∃ mail rest, buildMail (defaultFrom cfg587) envOk "s".toList "a@x.com".toList
        "c".toList = some mail ∧
      (SendEmail cfg587 envOk "s".toList "a@x.com".toList "c".toList).trace =
        Event.netDial (addrOf cfg587) none :: Event.newClient cfg587.SMTPServer none ::
          Event.extension "STARTTLS".toList false ::
          Event.auth (chooseAuth (defaultFrom cfg587) envOk)
            (envOk.auth (chooseAuth (defaultFrom cfg587) envOk)) :: rest ∧
      (SendEmail cfg587 envOk "s".toList "a@x.com".toList "c".toList).outcome =
        (session (defaultFrom cfg587) envOk (Split "a@x.com".toList ';') mail).2 :=
  (SendEmail_plain_unencrypted cfg587 envOk "s".toList "a@x.com".toList "c".toList
    (by decide) rfl (by decide) (by decide) rfl).2.2 rfl rfl

/-! ## C8: The configuration after a call -/

/-- C8, counterexample: with an empty `SMTPFrom` the call changes the configuration,
here even though it is a complete configuration and every call succeeds. -/
theorem SendEmail_changes_from :
    cfgNoFrom.SMTPFrom = [] ∧
      (SendEmail cfgNoFrom envOk "s".toList "a@x.com".toList "c".toList).config.SMTPFrom =
        "noreply@x.com".toList ∧
      (SendEmail cfgNoFrom envOk "s".toList "a@x.com".toList "c".toList).config ≠ cfgNoFrom := by
  decide

/-- C8, amended: a call leaves `SMTPServer`, `SMTPPort`, `SMTPAccount`, `SMTPToken`,
`SMTPSSLEnabled` and `SystemName` as they were, whatever its outcome; `SMTPFrom` keeps
its value when it was non-empty and is `SMTPAccount` afterwards when it was empty. -/
theorem SendEmail_config_frame (cfg : Config) (env : Env) (subject receiver content : Str) :
    (SendEmail cfg env subject receiver content).config.SMTPServer = cfg.SMTPServer ∧
      (SendEmail cfg env subject receiver content).config.SMTPPort = cfg.SMTPPort ∧
      (SendEmail cfg env subject receiver content).config.SMTPAccount = cfg.SMTPAccount ∧
      (SendEmail cfg env subject receiver content).config.SMTPToken = cfg.SMTPToken ∧
      (SendEmail cfg env subject receiver content).config.SMTPSSLEnabled = cfg.SMTPSSLEnabled ∧
      (SendEmail cfg env subject receiver content).config.SystemName = cfg.SystemName ∧
      (SendEmail cfg env subject receiver content).config.SMTPFrom =
        if cfg.SMTPFrom = [] then cfg.SMTPAccount else cfg.SMTPFrom := by
  rw [SendEmail_config]
  unfold defaultFrom
  split <;> simp_all

/-! ## C9: The encoded subject -/

/-- C9: for every subject the value placed in the `Subject` header is `=?UTF-8?B?`, the
standard Base64 encoding of the UTF-8 bytes of the subject, and `?=`.  The bytes are
those of `String.toUTF8`; the middle part is their encoding as RFC 4648 defines it on
the bit stream, and decoding it gives the bytes back, as it does for every list of
bytes; every character of the value is a letter, a digit or one of `+`, `/`, `=`, `?`,
`-`, is ASCII, and is neither CR nor LF.  Every message that `SendEmail` writes is
the `To` line, the `From` line, `Subject: ` with this value and CRLF, and then the
`Date`, `Message-ID` and `Content-Type` lines and the body; a call that returns `nil`
has written it. -/
theorem encodedSubject_base64 (cfg : Config) (env : Env) (subject receiver content : Str) :
    encodedSubject subject =
        "=?UTF-8?B?".toList ++ EncodeToString (toBytes subject) ++ "?=".toList ∧
      toBytes subject = (String.mk subject).toUTF8.data.toList.map UInt8.toNat ∧
      EncodeToString (toBytes subject) = base64RFC4648 (toBytes subject) ∧
      DecodeString (EncodeToString (toBytes subject)) = some (toBytes subject) ∧
      (∀ bytes : List Nat, (∀ b ∈ bytes, b < 256) →
        EncodeToString bytes = base64RFC4648 bytes ∧
        DecodeString (EncodeToString bytes) = some bytes) ∧
      (∀ c ∈ encodedSubject subject,
        (('A' ≤ c ∧ c ≤ 'Z') ∨ ('a' ≤ c ∧ c ≤ 'z') ∨ ('0' ≤ c ∧ c ≤ '9') ∨ c = '+' ∨ c = '/' ∨
          c = '=' ∨ c = '?' ∨ c = '-') ∧ c.toNat < 128 ∧ c ≠ '\r' ∧ c ≠ '\n') ∧
      (encodedSubject [] = "=?UTF-8?B??=".toList ∧
        encodedSubject "hi".toList = "=?UTF-8?B?aGk=?=".toList ∧
        encodedSubject "???".toList = "=?UTF-8?B?Pz8/?=".toList ∧
        encodedSubject "??>".toList = "=?UTF-8?B?Pz8+?=".toList ∧
        encodedSubject "aé€😀".toList = "=?UTF-8?B?YcOp4oKs8J+YgA==?=".toList ∧
        encodedSubject "Héllo\r\nBcc: x".toList =
          "=?UTF-8?B?SMOpbGxvDQpCY2M6IHg=?=".toList) ∧
      (∀ msg e, Event.write msg e ∈ (SendEmail cfg env subject receiver content).trace →
        ∃ messageID, generateMessageID (defaultFrom cfg) env = some messageID ∧
          msg = "To: ".toList ++ receiver ++ "\r\n".toList ++
            "From: ".toList ++ cfg.SystemName ++ " <".toList ++
              (if cfg.SMTPFrom = [] then cfg.SMTPAccount else cfg.SMTPFrom) ++ ">\r\n".toList ++
            "Subject: ".toList ++ encodedSubject subject ++ "\r\n".toList ++
            "Date: ".toList ++ env.nowRFC1123Z ++ "\r\n".toList ++
            "Message-ID: ".toList ++ messageID ++ "\r\n".toList ++
            "Content-Type: text/html; charset=UTF-8\r\n\r\n".toList ++ content ++
            "\r\n".toList) ∧
      ((SendEmail cfg env subject receiver content).outcome = Outcome.ok →
        ∃ msg, Event.write msg none ∈ (SendEmail cfg env subject receiver content).trace) := by
  refine ⟨rfl, toBytes_core subject, EncodeToString_eq_RFC _ (toBytes_lt subject),
    DecodeString_EncodeToString _ (toBytes_lt subject),
    fun bytes hb => ⟨EncodeToString_eq_RFC bytes hb, DecodeString_EncodeToString bytes hb⟩,
    encodedSubject_classes subject, by decide, ?_, SendEmail_ok_written cfg env subject receiver
      content⟩
  intro msg e h
  obtain ⟨messageID, hid, hmsg⟩ := buildMail_eq _ _ _ _ _ _
    (SendEmail_written cfg env subject receiver content msg e h)
  refine ⟨messageID, hid, ?_⟩
  rw [hmsg]
  have hfrom : (defaultFrom cfg).SMTPFrom =
      if cfg.SMTPFrom = [] then cfg.SMTPAccount else cfg.SMTPFrom := by
    unfold defaultFrom
    split <;> simp_all
  have hname : (defaultFrom cfg).SystemName = cfg.SystemName := by
    unfold defaultFrom
    split <;> rfl
  rw [hfrom, hname]

theorem encodedSubject_base64_witness :
    (EncodeToString [0xFF, 0xFE] = base64RFC4648 [0xFF, 0xFE] ∧
        DecodeString (EncodeToString [0xFF, 0xFE]) = some [0xFF, 0xFE]) ∧
      (∃ messageID, generateMessageID (defaultFrom cfg587) envOk = some messageID ∧
        (buildMail cfg587 envOk "Héllo\r\nBcc: x".toList "a".toList "c".toList).getD [] =
          "To: ".toList ++ "a".toList ++ "\r\n".toList ++
            "From: ".toList ++ cfg587.SystemName ++ " <".toList ++
              (if cfg587.SMTPFrom = [] then cfg587.SMTPAccount else cfg587.SMTPFrom) ++
              ">\r\n".toList ++
            "Subject: ".toList ++ encodedSubject "Héllo\r\nBcc: x".toList ++ "\r\n".toList ++
            "Date: ".toList ++ envOk.nowRFC1123Z ++ "\r\n".toList ++
            "Message-ID: ".toList ++ messageID ++ "\r\n".toList ++
            "Content-Type: text/html; charset=UTF-8\r\n\r\n".toList ++ "c".toList ++
            "\r\n".toList) ∧
      ∃ msg, Event.write msg none ∈
        (SendEmail cfg587 envOk "Héllo\r\nBcc: x".toList "a".toList "c".toList).trace :=
  ⟨(encodedSubject_base64 cfg587 envOk "Héllo\r\nBcc: x".toList "a".toList
      "c".toList).2.2.2.2.1 [0xFF, 0xFE] (by decide),
    (encodedSubject_base64 cfg587 envOk "Héllo\r\nBcc: x".toList "a".toList
      "c".toList).2.2.2.2.2.2.2.1
      ((buildMail cfg587 envOk "Héllo\r\nBcc: x".toList "a".toList "c".toList).getD [])
      none (by decide),
    (encodedSubject_base64 cfg587 envOk "Héllo\r\nBcc: x".toList "a".toList
      "c".toList).2.2.2.2.2.2.2.2 (by decide)⟩

/-! ## C10: The account without `@` -/

/-- C10: `generateMessageID` returns normally exactly when `SMTPAccount` contains `@`;
with a non-empty server and a non-empty account without `@`, `SendEmail` panics (it
returns no error) before any call to the network; with an account containing `@` the
message assembly does not fail. -/
theorem generateMessageID_panics_iff (cfg : Config) (env : Env)
    (subject receiver content : Str) :
    (generateMessageID cfg env ≠ none ↔ '@' ∈ cfg.SMTPAccount) ∧
      (cfg.SMTPServer ≠ [] → cfg.SMTPAccount ≠ [] → '@' ∉ cfg.SMTPAccount →
        (SendEmail cfg env subject receiver content).outcome = Outcome.indexOutOfRange ∧
        (SendEmail cfg env subject receiver content).trace = []) ∧
      ('@' ∈ cfg.SMTPAccount →
        buildMail (defaultFrom cfg) env subject receiver content ≠ none) := by
  refine ⟨generateMessageID_isSome cfg env, ?_, ?_⟩
  · intro hs ha hat
    have hb : buildMail (defaultFrom cfg) env subject receiver content = none := by
      by_contra hne
      have hmem := (buildMail_isSome (defaultFrom cfg) env subject receiver content).mp hne
      rw [defaultFrom_account] at hmem
      exact hat hmem
    have := SendEmail_panic cfg env subject receiver content hs ha hb
    exact ⟨this.2, this.1⟩
  · intro hat
    rw [buildMail_isSome, defaultFrom_account]
    exact hat

theorem generateMessageID_panics_iff_witness :
    ((SendEmail cfgNoAt envOk "s".toList "a@x.com".toList "c".toList).outcome = Outcome.indexOutOfRange ∧
        (SendEmail cfgNoAt envOk "s".toList "a@x.com".toList "c".toList).trace = []) ∧
      buildMail (defaultFrom cfg587) envOk "s".toList "a@x.com".toList "c".toList ≠ none :=
  ⟨(generateMessageID_panics_iff cfgNoAt envOk "s".toList "a@x.com".toList "c".toList).2.1
      (by decide) (by decide) (by decide),
    (generateMessageID_panics_iff cfg587 envOk "s".toList "a@x.com".toList "c".toList).2.2
      (by decide)⟩

end Email
